import Mathlib

/-!
Verification development for the kick-streamer-watch plugin.

Shallow embedding of the core subsystems:
* `src/utils/textUtils.ts` (word wrapping),
* `src/utils/imageUtils.ts` (image cache, single-image SVG, collage SVG),
* `src/actions/live-status-action.ts` (channel configuration, refresh,
  transition detection, rendering),
* the credential/token manager (`refreshTokens` and the single-flight
  in-flight marker), modelled as a pure state transformer plus a small-step
  interleaving semantics for concurrency.

Strings are modelled as Lean `String` / `List Char`; the JavaScript notion of
string length (UTF-16 code units) is abstracted to the number of characters,
which agrees on all inputs without surrogate pairs.
-/

namespace KickWatch

/-- Space character, the separator `wrapText` splits words on. -/
def sp : Char := ' '

/-- Newline character. -/
def nl : Char := Char.ofNat 10

/-- Code points removed by JavaScript `String.prototype.trim`
(WhiteSpace and LineTerminator). -/
def jsWhitespaceCodes : List Nat :=
  [0x9, 0xA, 0xB, 0xC, 0xD, 0x20, 0xA0, 0x1680, 0x2000, 0x2001, 0x2002, 0x2003,
   0x2004, 0x2005, 0x2006, 0x2007, 0x2008, 0x2009, 0x200A, 0x2028, 0x2029,
   0x202F, 0x205F, 0x3000, 0xFEFF]

/-- Whether `c` is whitespace in the sense of JavaScript `trim`. -/
def isJsWhitespace (c : Char) : Bool := jsWhitespaceCodes.contains c.toNat

/-- JavaScript `String.prototype.split` with a single-character separator:
always returns at least one (possibly empty) piece; a separator at either end
produces an empty piece there. -/
def splitCh (c : Char) : List Char → List (List Char)
  | [] => [[]]
  | x :: xs =>
    if x = c then [] :: splitCh c xs
    else (x :: (splitCh c xs).headD []) :: (splitCh c xs).tail

/-- JavaScript `String.prototype.trim` on a character list: drop leading and
trailing whitespace. -/
def trimChars (l : List Char) : List Char :=
  ((l.dropWhile isJsWhitespace).reverse.dropWhile isJsWhitespace).reverse

/-- JavaScript `trim` on `String`. -/
def jsTrim (s : String) : String := (trimChars s.data).asString

/-- JavaScript `split` on `String` with a single-character separator. -/
def jsSplitOn (c : Char) (s : String) : List String :=
  (splitCh c s.data).map List.asString

/-- Greedy chunking of a character list into pieces of at most `max 1 m`
characters, mirroring one regex match pass of `.{1,m}` over a newline-free
segment (the regex engine requires `m ≥ 1`; `max 1 m` only totalises the
function at `m = 0`, a value `wrapText` is never called with). -/
def chunksOf (m : Nat) (l : List Char) : List (List Char) :=
  match l with
  | [] => []
  | x :: xs =>
    ((x :: xs).take (max 1 m)) :: chunksOf m ((x :: xs).drop (max 1 m))
termination_by l.length
decreasing_by
  simp only [List.length_drop, List.length_cons]
  omega

/-- JavaScript `Array.prototype.join("\n")` on character lists. -/
def joinNl : List (List Char) → List Char
  | [] => []
  | [s] => s
  | s :: rest => s ++ nl :: joinNl rest

/-- The force-split step of `wrapText` (textUtils.ts line 19-24): a line longer
than `maxLength` is re-split by `line.match(/.{1,maxLength}/g)`, whose matches
are exactly the greedy chunks of the maximal newline-free segments of the
line; a null match (line consisting solely of newlines) falls back to the
line itself. -/
def forceSplitLine (maxLength : Nat) (line : List Char) : List Char :=
  if maxLength < line.length then
    let segs := (splitCh nl line).filter (fun s => decide (s ≠ []))
    let cs := (segs.map (chunksOf maxLength)).flatten
    if cs = [] then line else joinNl cs
  else line

/-- One step of the greedy word-filling loop of `wrapText`
(textUtils.ts lines 8-15): the accumulator is (finished lines, current line). -/
def wrapStep (maxLength : Nat) (acc : List (List Char) × List Char)
    (w : List Char) : List (List Char) × List Char :=
  if acc.2.length + 1 + w.length ≤ maxLength then (acc.1, acc.2 ++ sp :: w)
  else (acc.1 ++ [acc.2], w)

/-- `wrapText` of textUtils.ts on character lists. -/
def wrapTextL (text : List Char) (maxLength : Nat) : List Char :=
  if text.length ≤ maxLength then text
  else
    let words := splitCh sp text
    let fin := words.tail.foldl (wrapStep maxLength) ([], words.headD [])
    let lines := fin.1 ++ [fin.2]
    joinNl (lines.map (forceSplitLine maxLength))

/-- `wrapText(text, maxLength)` of src/utils/textUtils.ts. -/
def wrapText (text : String) (maxLength : Nat) : String :=
  (wrapTextL text.data maxLength).asString

/-- All newline-separated lines of `l` have length at most `n`. -/
def LinesLe (n : Nat) (l : List Char) : Prop :=
  ∀ p ∈ splitCh nl l, p.length ≤ n

/-! ## JavaScript coercion helpers -/

/-- Truthiness test for an optional JavaScript string: `undefined` and `""`
are falsy. -/
def jsFalsyStr : Option String → Bool
  | none => true
  | some s => decide (s = "")

/-- JavaScript `a || b` for an optional string `a` with a string default. -/
def jsOrS (a : Option String) (b : String) : String :=
  match a with
  | none => b
  | some s => if s = "" then b else s

/-- JavaScript `a || b` when both operands are optional strings. -/
def jsOrStrOpt (a b : Option String) : Option String :=
  if jsFalsyStr a then b else a

/-- JavaScript `a || b` for an optional number, `0` being falsy. -/
def jsOrNat (a : Option Nat) (b : Nat) : Nat :=
  match a with
  | none => b
  | some n => if n = 0 then b else n

/-- Text a boolean produces inside a JavaScript template literal. -/
def jsBoolStr (b : Bool) : String := if b then "true" else "false"

/-- JavaScript `String.prototype.toUpperCase` on the ASCII status literals. -/
def jsToUpper (s : String) : String := (s.data.map Char.toUpper).asString

/-! ## Data model (src/actions/kickStatus.ts, live-status-action.ts) -/

/-- Values of `StatusResult.status` (kickStatus.ts line 12). -/
inductive Status
  | live
  | offline
  | error
  | not_found
deriving DecidableEq

/-- Literal text of a status value. -/
def Status.text : Status → String
  | .live => "live"
  | .offline => "offline"
  | .error => "error"
  | .not_found => "not_found"

/-- Values of `ActionState.lastStatus` (live-status-action.ts line 30). -/
inductive LastStatus
  | live
  | offline
  | error
  | unknown
  | not_found
deriving DecidableEq

/-- Coerce a result status into the `lastStatus` union. -/
def Status.toLast : Status → LastStatus
  | .live => .live
  | .offline => .offline
  | .error => .error
  | .not_found => .not_found

/-- `StatusResult` of kickStatus.ts; optional fields are `Option`s defaulting
to `none` (absent). -/
structure StatusResult where
  isLive : Bool
  status : Status
  displayName : Option String := none
  thumbnailUrl : Option String := none
  base64Image : Option String := none
  rawBase64Image : Option String := none
  viewerCount : Option Nat := none
  title : Option String := none
  category : Option String := none
deriving DecidableEq

/-- Per-button `ActionState` of live-status-action.ts; timer handles are
modelled by the booleans recording whether the timer is active. -/
structure ActionState where
  channels : List String
  pollTimerActive : Bool := false
  lastStatus : LastStatus := .unknown
  alertEndTime : Nat := 0
  keyDownTime : Nat := 0
  alertTimerActive : Bool := false
  lastResult : Option StatusResult := none
  alertToggleState : Bool := false
  multiResults : Option (List StatusResult) := none
  alertingChannels : List String := []
deriving DecidableEq

/-- Side effects the action issues against the host rendering interface. -/
inductive Cmd
  | setTitle (t : String)
  | setImage (s : String)
deriving DecidableEq

/-! ## Image utilities (src/utils/imageUtils.ts): constants and text helpers -/

/-- Cache TTL in milliseconds (imageUtils.ts line 8). -/
def IMAGE_CACHE_MS : Nat := 600000

/-- Cache capacity (imageUtils.ts line 9). -/
def MAX_CACHE_SIZE : Nat := 50

/-- ViewBox edge length (imageUtils.ts line 13). -/
def VIEWBOX_SIZE : Nat := 100

/-- Rounded corner radius (imageUtils.ts line 14). -/
def BORDER_RADIUS : Nat := 15

/-- Inner rect size (imageUtils.ts line 15). -/
def INNER_RECT_SIZE : Nat := 98

/-- Inner rect offset (imageUtils.ts line 16). -/
def INNER_RECT_OFFSET : Nat := 1

/-- Font stack used by all text overlays (imageUtils.ts line 17). -/
def FONT_FAMILY : String :=
  "-apple-system, BlinkMacSystemFont, \x27Segoe UI\x27, Roboto, Helvetica, Arial, sans-serif"

/-- Font weight used by all text overlays (imageUtils.ts line 18). -/
def FONT_WEIGHT : String := "600"

/-- Path minimum coordinate, `INNER_RECT_OFFSET` (imageUtils.ts line 21). -/
def PATH_MIN : Nat := INNER_RECT_OFFSET

/-- Path maximum coordinate, 99 (imageUtils.ts line 22). -/
def PATH_MAX : Nat := VIEWBOX_SIZE - INNER_RECT_OFFSET

/-- Arc start coordinate, 16 (imageUtils.ts line 23). -/
def ARC_START : Nat := INNER_RECT_OFFSET + BORDER_RADIUS

/-- Arc end coordinate, 84 (imageUtils.ts line 24). -/
def ARC_END : Nat := VIEWBOX_SIZE - (INNER_RECT_OFFSET + BORDER_RADIUS)

/-- Decimal text of the non-integral layout constants (imageUtils.ts lines
33-39). The underlying doubles (49.5, 50.5, 16.5, 17.5) are exactly
representable, so JavaScript template interpolation renders exactly these
digits. -/
def CENTER_X_LEFT : String := "49.5"

/-- Decimal text of `CENTER_X + CENTER_LINE_GAP` (imageUtils.ts line 34). -/
def CENTER_X_RIGHT : String := "50.5"

/-- Decimal text of `CENTER_Y - CENTER_LINE_GAP` (imageUtils.ts line 35). -/
def CENTER_Y_TOP : String := "49.5"

/-- Decimal text of `CENTER_Y + CENTER_LINE_GAP` (imageUtils.ts line 36). -/
def CENTER_Y_BOTTOM : String := "50.5"

/-- Junction where the 3-grid top border stops (imageUtils.ts line 38). -/
def TOP_JUNCTION_Y : String := "16.5"

/-- Junction where the 3-grid side borders start (imageUtils.ts line 39). -/
def SIDE_JUNCTION_Y : String := "17.5"

/-- Character replacement of `escapeXml` (imageUtils.ts lines 151-161). -/
def escapeXmlChar (c : Char) : String :=
  if c = '<' then "&lt;"
  else if c = '>' then "&gt;"
  else if c = '&' then "&amp;"
  else if c = Char.ofNat 39 then "&apos;"
  else if c = '"' then "&quot;"
  else String.singleton c

/-- `escapeXml` (imageUtils.ts line 159). -/
def escapeXml (s : String) : String := String.join (s.data.map escapeXmlChar)

/-- Lowercase hexadecimal digit. -/
def hexDigit (n : Nat) : Char :=
  "0123456789abcdef".data.getD n (Char.ofNat 48)

/-- Character escaping of `JSON.stringify` for string values. -/
def jsonEscapeChar (c : Char) : String :=
  if c = '"' then "\\\""
  else if c = '\\' then "\\\\"
  else if c.toNat = 8 then "\\b"
  else if c.toNat = 9 then "\\t"
  else if c.toNat = 10 then "\\n"
  else if c.toNat = 12 then "\\f"
  else if c.toNat = 13 then "\\r"
  else if c.toNat < 0x20 then
    "\\u00" ++ String.mk [hexDigit (c.toNat / 16), hexDigit (c.toNat % 16)]
  else String.singleton c

/-- `JSON.stringify` of a string value. -/
def jsonStr (s : String) : String :=
  "\"" ++ String.join (s.data.map jsonEscapeChar) ++ "\""

/-- Text overlay argument of `getProcessedImage` (imageUtils.ts line 91). -/
structure TextOverlay where
  title : String
  subtitle : Option String := none
deriving DecidableEq

/-- Text `JSON.stringify(textOverlay)` contributes to the cache key
(imageUtils.ts line 93); an absent overlay interpolates as `undefined`, and
`JSON.stringify` omits an absent `subtitle` key. -/
def jsonOverlay : Option TextOverlay → String
  | none => "undefined"
  | some o =>
    "\x7b\"title\":" ++ jsonStr o.title ++
      (match o.subtitle with
       | none => ""
       | some sub => ",\"subtitle\":" ++ jsonStr sub) ++ "\x7d"

/-- UTF-8 encoding of one character as byte values. -/
def utf8Bytes (c : Char) : List Nat :=
  let n := c.toNat
  if n < 0x80 then [n]
  else if n < 0x800 then [0xC0 + n / 0x40, 0x80 + n % 0x40]
  else if n < 0x10000 then
    [0xE0 + n / 0x1000, 0x80 + n / 0x40 % 0x40, 0x80 + n % 0x40]
  else
    [0xF0 + n / 0x40000, 0x80 + n / 0x1000 % 0x40, 0x80 + n / 0x40 % 0x40,
     0x80 + n % 0x40]

/-- UTF-8 encoding of a string (`Buffer.from(svg, "utf8")`). -/
def utf8Encode (s : String) : List Nat := (s.data.map utf8Bytes).flatten

/-- Standard base64 alphabet. -/
def base64Alphabet : List Char :=
  "ABCDEFGHIJKLMNOPQRSTUVWXYZabcdefghijklmnopqrstuvwxyz0123456789+/".data

/-- Digit of the base64 alphabet. -/
def base64Digit (n : Nat) : Char := base64Alphabet.getD n (Char.ofNat 65)

/-- Base64 encoding of a byte list, with `=` padding. -/
def base64Chunks : List Nat → List Char
  | [] => []
  | [a] => [base64Digit (a / 4), base64Digit (a % 4 * 16), '=', '=']
  | [a, b] =>
    [base64Digit (a / 4), base64Digit (a % 4 * 16 + b / 16),
     base64Digit (b % 16 * 4), '=']
  | a :: b :: c :: rest =>
    base64Digit (a / 4) :: base64Digit (a % 4 * 16 + b / 16) ::
      base64Digit (b % 16 * 4 + c / 64) :: base64Digit (c % 64) ::
        base64Chunks rest

/-- `Buffer.from(s, "utf8").toString("base64")`. -/
def base64Encode (s : String) : String := (base64Chunks (utf8Encode s)).asString

/-- Data URI wrapping of an SVG document (imageUtils.ts line 140). -/
def svgDataUri (svg : String) : String :=
  "data:image/svg+xml;base64," ++ base64Encode svg

/-- Print a coordinate measured in twentieths of an SVG unit as exact decimal
text. The source computes these `y` positions in IEEE-754 doubles
(`fontSize * 1.1` and halves, imageUtils.ts lines 183-212); here they are
computed exactly. Binary rounding artifacts of the source rendering (for
example `18.700000000000003`) are abstracted to the exact decimals; no claim
depends on those digits. -/
def twentiethsToDecimal (v : Int) : String :=
  let sign := if v < 0 then "-" else ""
  let a := v.natAbs
  let ip := a / 20
  let centi := a % 20 * 5
  if centi = 0 then sign ++ toString ip
  else if centi % 10 = 0 then
    sign ++ toString ip ++ "." ++ toString (centi / 10)
  else sign ++ toString ip ++ "." ++ toString (centi / 10) ++ toString (centi % 10)

/-- One `<text>` element of `renderTextOverlay` (imageUtils.ts lines 191 and
212); the `y` coordinate is given in twentieths. -/
def textElement (yTwentieths : Int) (fontSize : Nat) (line : String) : String :=
  "<text x=\"50\" y=\"" ++ twentiethsToDecimal yTwentieths ++
    "\" font-family=\"" ++ FONT_FAMILY ++ "\" font-weight=\"" ++ FONT_WEIGHT ++
    "\" font-size=\"" ++ toString fontSize ++
    "\" text-anchor=\"middle\" fill=\"white\" filter=\"url(#textShadow)\">" ++
    escapeXml line ++ "</text>"

/-- `renderTextOverlay` (imageUtils.ts lines 163-217). Title font size is
`max(14, min(24 or 20, floor(170 / longestLine)))`; a multi-line title with no
subtitle is vertically centred; subtitle font size is
`max(14, min(20, floor(220 / longestLine)))` starting at `y = 92` (one line)
or `82` (several). A zero `longestLine` makes the division `Infinity`, so the
`min` collapses to its first argument. -/
def renderTextOverlay (textOverlay : Option TextOverlay) : String :=
  match textOverlay with
  | none => ""
  | some ov =>
    let hasSubtitle := ¬ jsFalsyStr ov.subtitle
    let titleY : Int := if hasSubtitle then 60 else 50
    let titlePart :=
      if ov.title = "" then ""
      else
        let titleLines := (splitCh nl ov.title.data).map List.asString
        let maxLineLength := (titleLines.map String.length).foldl max 0
        let verticalConstraint := if 1 < titleLines.length then 20 else 24
        let fontSize := max 14 (if maxLineLength = 0 then verticalConstraint
          else min verticalConstraint (170 / maxLineLength))
        let titleYc : Int :=
          if ¬ hasSubtitle ∧ 1 < titleLines.length then
            (1000 : Int) - titleLines.length * fontSize * 11 + fontSize * 10
          else titleY * 20
        String.join (titleLines.enum.map (fun p =>
          textElement (titleYc + p.1 * fontSize * 22) fontSize p.2))
    let subPart :=
      if jsFalsyStr ov.subtitle then ""
      else
        let subLines := (splitCh nl (ov.subtitle.getD "").data).map List.asString
        let maxLen := (subLines.map String.length).foldl max 0
        let subFontSize := max 14 (if maxLen = 0 then 20 else min 20 (220 / maxLen))
        let startY : Int := if 1 < subLines.length then 82 else 92
        String.join (subLines.enum.map (fun p =>
          textElement ((startY + p.1 * subFontSize) * 20) subFontSize p.2))
    titlePart ++ subPart

/-- SVG document built by `getProcessedImage` on a cache miss
(imageUtils.ts lines 121-138). -/
def processedSvg (colorDataUri : String) (isLive : Bool)
    (textOverlay : Option TextOverlay) : String :=
  let borderColor := if isLive then "#53fc18" else "#ff0000"
  "<?xml version=\"1.0\" encoding=\"UTF-8\"?>\n" ++
  "<svg xmlns=\"http://www.w3.org/2000/svg\" viewBox=\"0 0 " ++
    toString VIEWBOX_SIZE ++ " " ++ toString VIEWBOX_SIZE ++ "\">\n" ++
  "  <defs>\n" ++
  "    <filter id=\"grayscale\">\n" ++
  "      <feColorMatrix type=\"matrix\" values=\"0.2126 0.7152 0.0722 0 0 0.2126 0.7152 0.0722 0 0 0.2126 0.7152 0.0722 0 0 0 0 0 1 0\" />\n" ++
  "    </filter>\n" ++
  "    <filter id=\"textShadow\" x=\"-20%\" y=\"-20%\" width=\"140%\" height=\"140%\">\n" ++
  "      <feDropShadow dx=\"0\" dy=\"1\" stdDeviation=\"1\" flood-color=\"black\" flood-opacity=\"0.8\"/>\n" ++
  "    </filter>\n" ++
  "    <clipPath id=\"clip\">\n" ++
  "      <rect x=\"" ++ toString INNER_RECT_OFFSET ++ "\" y=\"" ++
    toString INNER_RECT_OFFSET ++ "\" width=\"" ++ toString INNER_RECT_SIZE ++
    "\" height=\"" ++ toString INNER_RECT_SIZE ++ "\" rx=\"" ++
    toString BORDER_RADIUS ++ "\" ry=\"" ++ toString BORDER_RADIUS ++ "\" />\n" ++
  "    </clipPath>\n" ++
  "  </defs>\n" ++
  "  <rect width=\"" ++ toString VIEWBOX_SIZE ++ "\" height=\"" ++
    toString VIEWBOX_SIZE ++ "\" fill=\"#000\" />\n" ++
  "  <image href=\"" ++ colorDataUri ++
    "\" x=\"0\" y=\"0\" width=\"" ++ toString VIEWBOX_SIZE ++ "\" height=\"" ++
    toString VIEWBOX_SIZE ++
    "\" preserveAspectRatio=\"xMidYMid slice\" clip-path=\"url(#clip)\" " ++
    (if ¬ isLive then "filter=\"url(#grayscale)\"" else "") ++ " />\n" ++
  "  <rect x=\"" ++ toString INNER_RECT_OFFSET ++ "\" y=\"" ++
    toString INNER_RECT_OFFSET ++ "\" width=\"" ++ toString INNER_RECT_SIZE ++
    "\" height=\"" ++ toString INNER_RECT_SIZE ++ "\" rx=\"" ++
    toString BORDER_RADIUS ++ "\" ry=\"" ++ toString BORDER_RADIUS ++
    "\" fill=\"none\" stroke=\"" ++ borderColor ++ "\" stroke-width=\"2\" />\n" ++
  "  " ++ renderTextOverlay textOverlay ++ "\n" ++
  "</svg>"

/-- Data URI a `getProcessedImage` call computes and stores on a miss; cache
hits return the stored copy of this same value (the key determines every
input of the computation). -/
def processedImageValue (colorDataUri : String) (isLive : Bool)
    (textOverlay : Option TextOverlay) : String :=
  svgDataUri (processedSvg colorDataUri isLive textOverlay)

/-! ## Image cache (imageUtils.ts lines 7-10 and 88-149)

The module-level `Map` is modelled as an association list in insertion order,
which is the iteration order of a JavaScript `Map` (`set` on an existing key
keeps its position). -/

/-- Entries of the image cache (imageUtils.ts line 7). -/
structure CacheEntry where
  value : String
  expiresAt : Nat
  lastUsed : Nat
deriving DecidableEq

/-- The image cache in `Map` iteration order. -/
abbrev ImageCache := List (String × CacheEntry)

/-- Cache key of `getProcessedImage` (imageUtils.ts line 93). -/
def cacheKey (colorDataUri : String) (isLive : Bool)
    (overlay : Option TextOverlay) : String :=
  colorDataUri ++ "-" ++ jsBoolStr isLive ++ "-" ++ jsonOverlay overlay

/-- `Map.get`. -/
def cacheLookup (c : ImageCache) (k : String) : Option CacheEntry :=
  (c.find? (fun p => decide (p.1 = k))).map Prod.snd

/-- `Map.set`: replace in place when the key exists, append otherwise. -/
def cacheSet (c : ImageCache) (k : String) (e : CacheEntry) : ImageCache :=
  if c.any (fun p => decide (p.1 = k)) then
    c.map (fun p => if p.1 = k then (k, e) else p)
  else c ++ [(k, e)]

/-- `Map.delete`; on the duplicate-free caches the code constructs this
removes exactly the entry with key `k`. -/
def cacheDelete (c : ImageCache) (k : String) : ImageCache :=
  c.filter (fun p => decide (p.1 ≠ k))

/-- Comparison used by the eviction sort: ascending `lastUsed`
(imageUtils.ts line 106). -/
def cacheLe (a b : String × CacheEntry) : Prop := a.2.lastUsed ≤ b.2.lastUsed

instance : DecidableRel cacheLe := fun a b => Nat.decLe a.2.lastUsed b.2.lastUsed

instance : IsTotal (String × CacheEntry) cacheLe :=
  ⟨fun a b => Nat.le_total a.2.lastUsed b.2.lastUsed⟩

instance : IsTrans (String × CacheEntry) cacheLe :=
  ⟨fun _ _ _ h1 h2 => Nat.le_trans h1 h2⟩

/-- `Array.from(imageCache.entries()).sort((a, b) => a[1].lastUsed - b[1].lastUsed)`;
`Array.prototype.sort` is stable, as is insertion sort. -/
def sortCacheByLastUsed (c : ImageCache) : ImageCache := List.insertionSort cacheLe c

/-- Entries evicted per prune: `Math.ceil(MAX_CACHE_SIZE *
CACHE_EVICTION_PERCENTAGE)` (imageUtils.ts line 109); the double product
`50 * 0.2` is exactly `10`, so the ceiling is 10. -/
def EVICT_COUNT : Nat := 10

/-- Body of the pruning loop (imageUtils.ts lines 110-114): delete the key of
the `i`-th sorted entry, skipping out-of-range indices as the source's
`if (sortedEntries[i])` guard does. -/
def deleteIndexStep (sorted : ImageCache) (acc : ImageCache) (i : Nat) : ImageCache :=
  match sorted[i]? with
  | some p => cacheDelete acc p.1
  | none => acc

/-- The pruning loop of `getProcessedImage` (imageUtils.ts lines 104-115):
delete the keys of the first `EVICT_COUNT` entries of the sort by `lastUsed`. -/
def pruneCache (c : ImageCache) : ImageCache :=
  (List.range EVICT_COUNT).foldl (deleteIndexStep (sortCacheByLastUsed c)) c

/-- `getProcessedImage` (imageUtils.ts lines 88-149) as a state transformer on
the cache: returns the updated cache and the produced data URI. A fresh hit
refreshes `lastUsed` via a replacing `set` without mutating the stored object;
a miss prunes when at capacity, renders, and stores with a 10-minute expiry. -/
def getProcessedImage (c : ImageCache) (now : Nat) (colorDataUri : String)
    (isLive : Bool) (overlay : Option TextOverlay) : ImageCache × String :=
  let key := cacheKey colorDataUri isLive overlay
  let freshHit :=
    match cacheLookup c key with
    | some e => if now < e.expiresAt then some e else none
    | none => none
  match freshHit with
  | some e => (cacheSet c key { e with lastUsed := now }, e.value)
  | none =>
    let c1 := if MAX_CACHE_SIZE ≤ c.length then pruneCache c else c
    let v := processedImageValue colorDataUri isLive overlay
    (cacheSet c1 key { value := v, expiresAt := now + IMAGE_CACHE_MS, lastUsed := now }, v)

/-- Well-formedness of a cache state: duplicate-free keys (a `Map` invariant)
and size within capacity. -/
def CacheOk (c : ImageCache) : Prop :=
  (c.map Prod.fst).Nodup ∧ c.length ≤ MAX_CACHE_SIZE

/-- Arguments of one `getProcessedImage` call. -/
structure CacheCall where
  now : Nat
  colorDataUri : String
  isLive : Bool
  overlay : Option TextOverlay

/-- Run a sequence of `getProcessedImage` calls from the initial empty cache. -/
def runCacheCalls (calls : List CacheCall) : ImageCache :=
  calls.foldl
    (fun c call => (getProcessedImage c call.now call.colorDataUri call.isLive call.overlay).1)
    []

/-! ## Collage generation (imageUtils.ts lines 219-364) -/

/-- Elements of the `items` argument of `generateCollageSvg`; the optional
`isFlashing` flag defaults to absent/false. -/
structure CollageItem where
  image : String
  isLive : Bool
  isFlashing : Bool := false
deriving DecidableEq

/-- One repeating-image `<pattern>` definition (imageUtils.ts lines 241-244),
including the template literal's leading newline and indentation. -/
def collagePattern (index : Nat) (item : CollageItem) : String :=
  "\n    <pattern id=\"pat" ++ toString index ++
    "\" patternUnits=\"userSpaceOnUse\" width=\"100\" height=\"100\">\n" ++
  "        <image href=\"" ++ item.image ++
    "\" x=\"0\" y=\"0\" width=\"100\" height=\"100\" preserveAspectRatio=\"xMidYMid slice\" " ++
    (if ¬ item.isLive then "filter=\"url(#grayscale)\"" else "") ++ " />\n" ++
  "    </pattern>"

/-- Tile geometries by tile count (imageUtils.ts lines 250-283): 2 is a
vertical half-split, 3 is the inverted-Y split (one top wedge, two lower
wedges), anything else falls through to the quadrant grid. Counts 0 and 1
never reach this table. Each entry is (tag, attributes). -/
def collageGeometries (count : Nat) : List (String × String) :=
  if count = 2 then
    [("rect", "x=\"0\" y=\"0\" width=\"50\" height=\"100\""),
     ("rect", "x=\"50\" y=\"0\" width=\"50\" height=\"100\"")]
  else if count = 3 then
    [("polygon", "points=\"50,50 0,17 0,0 100,0 100,17\""),
     ("polygon", "points=\"50,50 100,17 100,100 50,100\""),
     ("polygon", "points=\"50,50 50,100 0,100 0,17\"")]
  else
    [("rect", "x=\"0\" y=\"0\" width=\"50\" height=\"50\""),
     ("rect", "x=\"50\" y=\"0\" width=\"50\" height=\"50\""),
     ("rect", "x=\"0\" y=\"50\" width=\"50\" height=\"50\""),
     ("rect", "x=\"50\" y=\"50\" width=\"50\" height=\"50\"")]

/-- Separator lines drawn over the tiles (imageUtils.ts lines 256-282),
with the template literals' whitespace. -/
def collageSeparators (count : Nat) : String :=
  if count = 2 then
    "<line x1=\"50\" y1=\"0\" x2=\"50\" y2=\"100\" stroke=\"black\" stroke-width=\"2\" />"
  else if count = 3 then
    "\n            <line x1=\"50\" y1=\"50\" x2=\"0\" y2=\"17\" stroke=\"black\" stroke-width=\"2\" />\n" ++
    "            <line x1=\"50\" y1=\"50\" x2=\"100\" y2=\"17\" stroke=\"black\" stroke-width=\"2\" />\n" ++
    "            <line x1=\"50\" y1=\"50\" x2=\"50\" y2=\"100\" stroke=\"black\" stroke-width=\"2\" />\n        "
  else
    "\n            <line x1=\"50\" y1=\"0\" x2=\"50\" y2=\"100\" stroke=\"black\" stroke-width=\"2\" />\n" ++
    "            <line x1=\"0\" y1=\"50\" x2=\"100\" y2=\"50\" stroke=\"black\" stroke-width=\"2\" />\n        "

/-- Clip path definitions, one per geometry (imageUtils.ts line 286). -/
def collageClipDefs (count : Nat) : List String :=
  (collageGeometries count).enum.map (fun p =>
    "<clipPath id=\"clip" ++ toString p.1 ++ "\"><" ++ p.2.1 ++ " " ++ p.2.2 ++
      " /></clipPath>")

/-- Tile fills, one shape per geometry, filled with its image pattern or the
flat flash color (imageUtils.ts lines 289-295). -/
def collageImageShapes (items : List CollageItem) (count : Nat) : List String :=
  (collageGeometries count).enum.map (fun p =>
    let fill :=
      match items.get? p.1 with
      | some it =>
        if it.isFlashing then "#53fc18" else "url(#pat" ++ toString p.1 ++ ")"
      | none => "url(#pat" ++ toString p.1 ++ ")"
    "<" ++ p.2.1 ++ " " ++ p.2.2 ++ " fill=\"" ++ fill ++ "\" />")

/-- Explicit per-tile border paths by tile count (imageUtils.ts lines
299-329), with half-pixel gaps at shared edges and the fixed junction
offsets for the 3-grid. -/
def collageBorderPaths (count : Nat) : List String :=
  if count = 2 then
    ["M " ++ CENTER_X_LEFT ++ "," ++ toString PATH_MIN ++ " L " ++
       toString ARC_START ++ "," ++ toString PATH_MIN ++ " A " ++
       toString BORDER_RADIUS ++ "," ++ toString BORDER_RADIUS ++ " 0 0 0 " ++
       toString PATH_MIN ++ "," ++ toString ARC_START ++ " L " ++
       toString PATH_MIN ++ "," ++ toString ARC_END ++ " A " ++
       toString BORDER_RADIUS ++ "," ++ toString BORDER_RADIUS ++ " 0 0 0 " ++
       toString ARC_START ++ "," ++ toString PATH_MAX ++ " L " ++
       CENTER_X_LEFT ++ "," ++ toString PATH_MAX,
     "M " ++ CENTER_X_RIGHT ++ "," ++ toString PATH_MIN ++ " L " ++
       toString ARC_END ++ "," ++ toString PATH_MIN ++ " A " ++
       toString BORDER_RADIUS ++ "," ++ toString BORDER_RADIUS ++ " 0 0 1 " ++
       toString PATH_MAX ++ "," ++ toString ARC_START ++ " L " ++
       toString PATH_MAX ++ "," ++ toString ARC_END ++ " A " ++
       toString BORDER_RADIUS ++ "," ++ toString BORDER_RADIUS ++ " 0 0 1 " ++
       toString ARC_END ++ "," ++ toString PATH_MAX ++ " L " ++
       CENTER_X_RIGHT ++ "," ++ toString PATH_MAX]
  else if count = 3 then
    ["M " ++ toString PATH_MIN ++ "," ++ TOP_JUNCTION_Y ++ " A " ++
       toString BORDER_RADIUS ++ "," ++ toString BORDER_RADIUS ++ " 0 0 1 " ++
       toString ARC_START ++ "," ++ toString PATH_MIN ++ " L " ++
       toString ARC_END ++ "," ++ toString PATH_MIN ++ " A " ++
       toString BORDER_RADIUS ++ "," ++ toString BORDER_RADIUS ++ " 0 0 1 " ++
       toString PATH_MAX ++ "," ++ TOP_JUNCTION_Y,
     "M " ++ toString PATH_MAX ++ "," ++ SIDE_JUNCTION_Y ++ " L " ++
       toString PATH_MAX ++ "," ++ toString ARC_END ++ " A " ++
       toString BORDER_RADIUS ++ "," ++ toString BORDER_RADIUS ++ " 0 0 1 " ++
       toString ARC_END ++ "," ++ toString PATH_MAX ++ " L " ++
       CENTER_X_RIGHT ++ "," ++ toString PATH_MAX,
     "M " ++ CENTER_X_LEFT ++ "," ++ toString PATH_MAX ++ " L " ++
       toString ARC_START ++ "," ++ toString PATH_MAX ++ " A " ++
       toString BORDER_RADIUS ++ "," ++ toString BORDER_RADIUS ++ " 0 0 1 " ++
       toString PATH_MIN ++ "," ++ toString ARC_END ++ " L " ++
       toString PATH_MIN ++ "," ++ SIDE_JUNCTION_Y]
  else
    ["M " ++ CENTER_X_LEFT ++ "," ++ toString PATH_MIN ++ " L " ++
       toString ARC_START ++ "," ++ toString PATH_MIN ++ " A " ++
       toString BORDER_RADIUS ++ "," ++ toString BORDER_RADIUS ++ " 0 0 0 " ++
       toString PATH_MIN ++ "," ++ toString ARC_START ++ " L " ++
       toString PATH_MIN ++ "," ++ CENTER_Y_TOP,
     "M " ++ CENTER_X_RIGHT ++ "," ++ toString PATH_MIN ++ " L " ++
       toString ARC_END ++ "," ++ toString PATH_MIN ++ " A " ++
       toString BORDER_RADIUS ++ "," ++ toString BORDER_RADIUS ++ " 0 0 1 " ++
       toString PATH_MAX ++ "," ++ toString ARC_START ++ " L " ++
       toString PATH_MAX ++ "," ++ CENTER_Y_TOP,
     "M " ++ toString PATH_MIN ++ "," ++ CENTER_Y_BOTTOM ++ " L " ++
       toString PATH_MIN ++ "," ++ toString ARC_END ++ " A " ++
       toString BORDER_RADIUS ++ "," ++ toString BORDER_RADIUS ++ " 0 0 0 " ++
       toString ARC_START ++ "," ++ toString PATH_MAX ++ " L " ++
       CENTER_X_LEFT ++ "," ++ toString PATH_MAX,
     "M " ++ toString PATH_MAX ++ "," ++ CENTER_Y_BOTTOM ++ " L " ++
       toString PATH_MAX ++ "," ++ toString ARC_END ++ " A " ++
       toString BORDER_RADIUS ++ "," ++ toString BORDER_RADIUS ++ " 0 0 1 " ++
       toString ARC_END ++ "," ++ toString PATH_MAX ++ " L " ++
       CENTER_X_RIGHT ++ "," ++ toString PATH_MAX]

/-- Per-tile border elements (imageUtils.ts lines 331-335): the first four
items each get a path colored by their live state; a missing path renders
nothing. -/
def collageBorders (items : List CollageItem) (count : Nat) : List String :=
  (items.take 4).enum.map (fun p =>
    match (collageBorderPaths count).get? p.1 with
    | none => ""
    | some d =>
      let color := if p.2.isLive then "#53fc18" else "#ff0000"
      "<path d=\"" ++ d ++ "\" fill=\"none\" stroke=\"" ++ color ++
        "\" stroke-width=\"2\" />")

/-- Fixed solid-green rounded square returned for a single flashing tile
(imageUtils.ts lines 230-233). -/
def greenFlashSquare : String :=
  "<?xml version=\"1.0\" encoding=\"UTF-8\"?>\n" ++
  "<svg xmlns=\"http://www.w3.org/2000/svg\" viewBox=\"0 0 100 100\">\n" ++
  "  <rect width=\"100\" height=\"100\" fill=\"#53fc18\" rx=\"15\" ry=\"15\" />\n" ++
  "</svg>"

/-- SVG document `generateCollageSvg` assembles for 2 or more tiles
(imageUtils.ts lines 339-361). -/
def collageSvgText (items : List CollageItem) (overlay : Option TextOverlay) : String :=
  let count := items.length
  let patterns := String.intercalate "\n" (items.enum.map (fun p => collagePattern p.1 p.2))
  let clipDefs := String.intercalate "\n" (collageClipDefs count)
  let imageShapes := String.intercalate "\n" (collageImageShapes items count)
  let borders := String.intercalate "\n" (collageBorders items count)
  "<?xml version=\"1.0\" encoding=\"UTF-8\"?>\n" ++
  "<svg xmlns=\"http://www.w3.org/2000/svg\" viewBox=\"0 0 100 100\">\n" ++
  "  <defs>\n" ++
  "    <filter id=\"grayscale\">\n" ++
  "      <feColorMatrix type=\"matrix\" values=\"0.2126 0.7152 0.0722 0 0 0.2126 0.7152 0.0722 0 0 0.2126 0.7152 0.0722 0 0 0 0 0 1 0\" />\n" ++
  "    </filter>\n" ++
  "    <clipPath id=\"mainClip\">\n" ++
  "      <rect x=\"1\" y=\"1\" width=\"98\" height=\"98\" rx=\"15\" ry=\"15\" />\n" ++
  "    </clipPath>\n" ++
  "    " ++ patterns ++ "\n" ++
  "    " ++ clipDefs ++ "\n" ++
  "  </defs>\n" ++
  "  \n" ++
  "  <rect width=\"100\" height=\"100\" fill=\"#000\" />\n" ++
  "  \n" ++
  "  <g clip-path=\"url(#mainClip)\">\n" ++
  "    " ++ imageShapes ++ "\n" ++
  "    " ++ collageSeparators count ++ "\n" ++
  "  </g>\n" ++
  "  \n" ++
  "  " ++ borders ++ "\n" ++
  "  " ++ renderTextOverlay overlay ++ "\n" ++
  "</svg>"

/-- `generateCollageSvg` (imageUtils.ts lines 219-364): empty items give an
empty string; a single flashing item short-circuits to the fixed green
square; a single non-flashing item delegates to the single-image renderer;
otherwise the collage document is assembled and data-URI encoded. -/
def generateCollageSvg (items : List CollageItem) (overlay : Option TextOverlay) : String :=
  match items with
  | [] => ""
  | [it] =>
    if it.isFlashing then svgDataUri greenFlashSquare
    else processedImageValue it.image it.isLive overlay
  | _ => svgDataUri (collageSvgText items overlay)

/-! ## Channel monitor (src/actions/live-status-action.ts)

`refresh` and `render` are embedded as pure functions from the action state
and the fetch outcomes to the new state plus the list of host commands
issued. Calls into `getProcessedImage` are represented by their produced
value (`processedImageValue`): the cache key determines every input of the
rendering, so a hit returns the stored copy of the same value; the cache
state itself is analysed separately. -/

/-- Transparent 1x1 placeholder used when a tile has no image
(live-status-action.ts lines 246 and 410). -/
def placeholderPixel : String :=
  "data:image/png;base64,iVBORw0KGgoAAAANSUhEUgAAAAEAAAABCAQAAAC1HAwCAAAAC0lEQVR42mNkYAAAAAYAAjCB0C8AAAAASUVORK5CYII="

/-- Channel-list computation of `configureChannel` (live-status-action.ts
lines 137-141): split on comma, trim, drop empties, cap at 4. -/
def parseChannels (channelValue : Option String) : List String :=
  (((jsSplitOn ',' (channelValue.getD "")).map jsTrim).filter
    (fun c => 0 < c.length)).take 4

/-- `configureChannel` (live-status-action.ts lines 130-159). The returned
flag records whether `refresh` and `startPolling` were invoked on the
returned state; their timer start is reflected in `pollTimerActive`, while
the refresh itself (which needs fetch outcomes) is applied separately. An
empty parsed list clears the channels, cancels both timers, and renders the
placeholder; a textually identical list with an active poll timer is a
no-op. -/
def configureChannel (channelValue : Option String) (st : ActionState) :
    ActionState × List Cmd × Bool :=
  let channels := parseChannels channelValue
  if channels.length = 0 then
    ({ st with channels := [], pollTimerActive := false, alertTimerActive := false },
     [Cmd.setTitle "No Channel", Cmd.setImage "imgs/actions/red.png"], false)
  else if String.intercalate "," channels = String.intercalate "," st.channels ∧
      st.pollTimerActive then
    (st, [], false)
  else
    ({ st with channels := channels, pollTimerActive := true }, [], true)

/-- Synthetic per-channel failure result (live-status-action.ts line 203). -/
def syntheticError (channel : String) : StatusResult :=
  { isLive := false, status := .error, displayName := some channel }

/-- `allResults` of the multi-channel refresh (live-status-action.ts lines
198-206): each channel's fetched result, a rejection degrading to the
synthetic error result for that channel only. -/
def allResultsOf (channels : List String)
    (outcomes : List (Except Unit StatusResult)) : List StatusResult :=
  (channels.zip outcomes).map (fun p =>
    match p.2 with
    | Except.ok r => r
    | Except.error _ => syntheticError p.1)

/-- `validResults` (live-status-action.ts line 209): non-existent channels
filtered out. -/
def validResultsOf (allResults : List StatusResult) : List StatusResult :=
  allResults.filter (fun r => decide (r.status ≠ .not_found))

/-- JavaScript `Set.add` on the insertion-ordered model of a string set. -/
def setAdd (s : List String) (x : String) : List String :=
  if s.contains x then s else s ++ [x]

/-- Transition detection of `refresh` (live-status-action.ts lines 281-311):
positional matching with the configured slug as stable identifier when the
previous results, new results and configured channels are index-aligned,
display-name matching otherwise; a pair fires when the old result is not
live, the new one is, and the identifier is truthy. -/
def transitionTargets (channels : List String)
    (oldResults newResults : List StatusResult) : List String :=
  let indicesAligned :=
    oldResults.length = newResults.length ∧ channels.length = newResults.length
  newResults.enum.foldl (fun acc p =>
    let oldR :=
      if indicesAligned then oldResults.get? p.1
      else oldResults.find? (fun o => decide (o.displayName = p.2.displayName))
    let stableIdentifier :=
      if indicesAligned then channels.get? p.1 else p.2.displayName
    match oldR, stableIdentifier with
    | some o, some sid =>
      if o.isLive = false ∧ p.2.isLive = true ∧ sid ≠ "" then setAdd acc sid
      else acc
    | _, _ => acc) []

/-- `startAlert` (live-status-action.ts lines 336-341): one-minute alert
window, toggle set, 1-second timer armed (modelled by `alertTimerActive`). -/
def startAlert (st : ActionState) (now : Nat) : ActionState :=
  { st with alertEndTime := now + 60000, alertToggleState := true,
            alertTimerActive := true }

/-- Collage items rebuilt while flashing (live-status-action.ts lines
410-415): placeholder image for tiles without one, flashing iff the display
name is truthy and currently alerting. -/
def flashingCollageItems (st : ActionState) (rs : List StatusResult) :
    List CollageItem :=
  rs.map (fun r =>
    { image := jsOrS r.rawBase64Image placeholderPixel,
      isLive := r.isLive,
      isFlashing :=
        match r.displayName with
        | some n => if n = "" then false else st.alertingChannels.contains n
        | none => false })

/-- Newline-joined names of the live results (live-status-action.ts lines
255-258 and 418-419); `Array.prototype.join` renders an absent name as the
empty string. -/
def liveNames (rs : List StatusResult) : String :=
  let liveResults := rs.filter (·.isLive)
  if 0 < liveResults.length then
    String.intercalate "\n" (liveResults.map (fun r => (r.displayName).getD ""))
  else ""

/-- Shared tail of `render` (live-status-action.ts lines 404-430): set the
title, then pick the flash image (fresh collage in multi mode, static green
otherwise) while alerting with the toggle on, else the computed image source
with a green/red static fallback. -/
def renderTail (st : ActionState) (result : StatusResult) (isAlerting : Bool)
    (title : String) (imageSource : Option String) : List Cmd :=
  let img :=
    if isAlerting ∧ st.alertToggleState then
      if 1 < st.channels.length ∧ st.multiResults.isSome then
        let rs := st.multiResults.getD []
        generateCollageSvg (flashingCollageItems st rs)
          (some { title := liveNames rs })
      else "imgs/actions/green.png"
    else
      match imageSource with
      | some s => s
      | none => if result.isLive then "imgs/actions/green.png" else "imgs/actions/red.png"
  [Cmd.setTitle title, Cmd.setImage img]

/-- `render` (live-status-action.ts lines 357-431). Multi-channel mode clears
the title (names are baked into the collage). Single-channel mode: an
error-status result or a falsy display name renders
`"<channel[0] or Unknown>\nNot Found"` with the static red image and
returns; other non-live results render `"<name>\nNOT FOUND"` or
`"<name>\n<STATUS>"` uppercased; a live result clears the title and, when a
truthy raw image is present, regenerates the image with the name as title
and the category (default `"Live"`) wrapped at width 15 as subtitle. -/
def render (st : ActionState) (result : StatusResult) (isAlerting : Bool) :
    List Cmd :=
  let imageSource := result.base64Image
  if 1 < st.channels.length then
    renderTail st result isAlerting "" imageSource
  else
    if result.status = .error ∨ jsFalsyStr result.displayName then
      [Cmd.setTitle (jsOrS st.channels.head? "Unknown" ++ "\nNot Found"),
       Cmd.setImage "imgs/actions/red.png"]
    else
      let displayName :=
        match result.displayName with
        | some s => s
        | none => if 0 < st.channels.length then st.channels.headD "" else "Unknown"
      if result.status ≠ .live then
        let statusText :=
          if result.status = .not_found then "NOT FOUND"
          else jsToUpper result.status.text
        renderTail st result isAlerting (displayName ++ "\n" ++ statusText) imageSource
      else
        let imageSource2 :=
          if jsFalsyStr result.rawBase64Image then imageSource
          else
            let category := jsOrS result.category "Live"
            some (processedImageValue ((result.rawBase64Image).getD "") true
              (some { title := displayName, subtitle := some (wrapText category 15) }))
        renderTail st result isAlerting "" imageSource2

/-- Collage items of the normal multi-channel refresh (live-status-action.ts
lines 248-251). -/
def buildCollageItems (validResults : List StatusResult) : List CollageItem :=
  validResults.map (fun r =>
    { image := jsOrS r.rawBase64Image placeholderPixel, isLive := r.isLive })

/-- Names drawn onto the collage (live-status-action.ts lines 255-264): live
names, falling back to the sole valid result's name when exactly one valid
result exists and none are live. -/
def multiNames (validResults : List StatusResult) : String :=
  let names0 := liveNames validResults
  if validResults.length = 1 ∧ names0 = "" then
    match validResults.head? with
    | some r => jsOrS r.displayName ""
    | none => names0
  else names0

/-- Synthetic aggregate result of a multi-channel refresh
(live-status-action.ts lines 266-276). -/
def buildMultiResult (validResults : List StatusResult) : StatusResult :=
  let anyLive := validResults.any (·.isLive)
  let names := multiNames validResults
  let collageSvg :=
    generateCollageSvg (buildCollageItems validResults) (some { title := names })
  { isLive := anyLive,
    status := if anyLive then .live else .offline,
    displayName := some names,
    base64Image := some collageSvg,
    viewerCount := some (validResults.foldl (fun acc r => acc + (r.viewerCount).getD 0) 0),
    category := jsOrStrOpt ((validResults.find? (·.isLive)).bind (·.category))
      ((validResults.head?).bind (·.category)) }

/-- Transition check, alert start, state commit and conditional render shared
by both refresh modes (live-status-action.ts lines 279-327): transitions are
matched through `transitionTargets` when both the previous and the new
`multiResults` exist, else through the single-channel
`lastStatus = offline → live` rule; a non-empty target set replaces
`alertingChannels` and starts the alert cycle; `lastStatus`/`lastResult` are
committed; rendering is suppressed while the alert timer is active. -/
def afterFetch (st1 : ActionState) (oldMulti : Option (List StatusResult))
    (result : StatusResult) (now : Nat) : ActionState × List Cmd :=
  let newAlerting :=
    match oldMulti, st1.multiResults with
    | some oldRs, some newRs => transitionTargets st1.channels oldRs newRs
    | _, _ =>
      if st1.channels.length = 1 ∧ st1.lastStatus = .offline ∧
          result.status = .live then
        [st1.channels.headD ""]
      else []
  let st2 :=
    if 0 < newAlerting.length then
      startAlert { st1 with alertingChannels := newAlerting } now
    else st1
  let st3 := { st2 with lastStatus := result.status.toLast, lastResult := some result }
  if st3.alertTimerActive = false then (st3, render st3 result false)
  else (st3, [])

/-- `refresh` (live-status-action.ts lines 184-334) as a pure function of the
state and the per-channel fetch outcomes (`Except.error` is a rejected
fetch). Single-channel mode fetches once, a rejection hitting the outer
catch (red image, `ERROR` title). Multi-channel mode degrades individual
failures to synthetic error results, filters out `not_found`, and — when all
channels are invalid but some were fetched — renders the placeholder and
returns without touching the state (in particular `channels`, per the
explicit invariant comment at lines 218-237). -/
def refresh (st : ActionState) (outcomes : List (Except Unit StatusResult))
    (now : Nat) : ActionState × List Cmd :=
  if st.channels.length = 0 then (st, [])
  else
    let oldMultiResults := st.multiResults
    if st.channels.length = 1 then
      match outcomes.headD (Except.error ()) with
      | Except.error _ =>
        (st, [Cmd.setImage "imgs/actions/red.png", Cmd.setTitle "ERROR"])
      | Except.ok result =>
        afterFetch { st with multiResults := some [result] } oldMultiResults result now
    else
      let allResults := allResultsOf st.channels outcomes
      let validResults := validResultsOf allResults
      if validResults.length = 0 ∧ 0 < allResults.length then
        (st, [Cmd.setImage "imgs/actions/red.png", Cmd.setTitle "Not Found"])
      else
        let result := buildMultiResult validResults
        afterFetch { st with multiResults := some validResults } oldMultiResults
          result now

/-! ## Credential/token manager (unnamed module, `refreshTokens` lines
96-146) -/

/-- Minimal `ServerMetadata` record (src/types.ts); only carried through. -/
structure ServerMetadata where
  issuer : String
deriving DecidableEq

/-- `TokenEndpointResponse` (src/types.ts). -/
structure TokenEndpointResponse where
  access_token : Option String := none
  token_type : Option String := none
  id_token : Option String := none
  refresh_token : Option String := none
  scope : Option String := none
  expires_at : Option Nat := none
  expires_in : Option Nat := none
deriving DecidableEq

/-- `Credentials` (src/server/credentials.ts). -/
structure Credentials where
  serverMetadata : ServerMetadata
  clientId : String
  clientSecret : String
  tokens : TokenEndpointResponse
deriving DecidableEq

/-- Module-level token cache (`cachedCredentials`, `cachedTokens`). -/
structure TokenCacheState where
  cachedCredentials : Option Credentials := none
  cachedTokens : Option TokenEndpointResponse := none
deriving DecidableEq

/-- Expiry skew in seconds. -/
def TOKEN_EXPIRY_SKEW_SECONDS : Nat := 60

/-- `shouldRefreshToken`: a token is due when
`expires_at - skew <= now` (absent expiry is never due). -/
def shouldRefreshToken (tokens : TokenEndpointResponse) (nowSec : Nat) : Bool :=
  match tokens.expires_at with
  | none => false
  | some e => e - TOKEN_EXPIRY_SKEW_SECONDS ≤ nowSec

/-- Possible outcomes of the upstream `/refresh` request. -/
inductive RefreshFetch
  | netError
  | httpError (statusText : String)
  | ok (resp : TokenEndpointResponse)

/-- Outcome of persisting the merged credential set. -/
inductive SaveOutcome
  | ok
  | failed

/-- One `refreshTokens` call (unnamed module lines 96-146) as a pure state
transformer over the module token cache, parameterised by the upstream fetch
outcome and the storage save outcome. A missing refresh token, a rejected
fetch, or a non-2xx response throws before any cache mutation; on success the
response is merged over the old tokens (old refresh token kept when the
server omits one, `expires_at` defaulted from `expires_in` or 7200 seconds),
the cache is updated, and the merged set persisted. -/
def refreshTokensRun (st : TokenCacheState) (credentials : Credentials)
    (currentTokens : TokenEndpointResponse) (fetch : RefreshFetch)
    (save : SaveOutcome) (nowSec : Nat) :
    TokenCacheState × Except String TokenEndpointResponse :=
  if jsFalsyStr currentTokens.refresh_token then
    (st, Except.error "Kick credentials missing refresh token. Re-run the auth helper CLI.")
  else
    match fetch with
    | .netError => (st, Except.error "fetch failed")
    | .httpError t => (st, Except.error ("Token refresh failed: " ++ t))
    | .ok refreshed =>
      let mergedTokens : TokenEndpointResponse :=
        { refreshed with
          refresh_token :=
            match refreshed.refresh_token with
            | some s => some s
            | none => currentTokens.refresh_token,
          expires_at :=
            some (jsOrNat refreshed.expires_at (nowSec + jsOrNat refreshed.expires_in 7200)) }
      let st1 : TokenCacheState :=
        { cachedTokens := some mergedTokens,
          cachedCredentials := some { credentials with tokens := mergedTokens } }
      match save with
      | .failed => (st1, Except.error "storage save failed")
      | .ok => (st1, Except.ok mergedTokens)

/-! ## Single-flight interleaving model (`refreshInFlight`, lines 17 and
104-145)

JavaScript runs callers of `refreshTokens` as interleaved asynchronous
tasks: code between `await` points is atomic. The small-step relation below
captures the observable decisions: a caller entering the refresh path either
joins the in-flight promise recorded in `refreshInFlight` or (when the marker
is clear) creates a new promise, issuing one upstream request; the promise
settles once; a caller awaiting a settled promise resumes, adopting its
result and clearing the marker in its `finally` block. Results are promise
outcome identifiers (the merged token set on success). -/

/-- Phase of one caller of the refresh path. -/
inductive CallerPhase
  | idle
  | awaiting (pid : Nat)
  | done (res : Nat)
deriving DecidableEq

/-- Global state of the single-flight machine: the `refreshInFlight` marker
(a promise id), the next fresh promise id, the settled promises with their
results, the count of upstream refresh requests issued, and the callers. -/
structure SFState where
  marker : Option Nat
  nextPid : Nat
  settled : List (Nat × Nat)
  fetches : Nat
  callers : List CallerPhase
deriving DecidableEq

/-- Transition labels. -/
inductive SFLabel
  | start (i : Nat)
  | settle (p r : Nat)
  | resume (i : Nat)
deriving DecidableEq

/-- Whether a label is a caller entering the refresh path. -/
def SFLabel.isStart : SFLabel → Bool
  | .start _ => true
  | _ => false

/-- Small-step semantics of the single-flight refresh path. -/
inductive SFStep : SFState → SFLabel → SFState → Prop
  | startJoin (s : SFState) (i p : Nat)
      (hc : s.callers[i]? = some .idle) (hm : s.marker = some p) :
      SFStep s (.start i) { s with callers := s.callers.set i (.awaiting p) }
  | startNew (s : SFState) (i : Nat)
      (hc : s.callers[i]? = some .idle) (hm : s.marker = none) :
      SFStep s (.start i)
        { s with marker := some s.nextPid, nextPid := s.nextPid + 1,
                 fetches := s.fetches + 1,
                 callers := s.callers.set i (.awaiting s.nextPid) }
  | settle (s : SFState) (p r : Nat)
      (hp : p < s.nextPid) (hu : s.settled.lookup p = none) :
      SFStep s (.settle p r) { s with settled := (p, r) :: s.settled }
  | resume (s : SFState) (i p r : Nat)
      (hc : s.callers[i]? = some (.awaiting p))
      (hs : s.settled.lookup p = some r) :
      SFStep s (.resume i)
        { s with callers := s.callers.set i (.done r), marker := none }

/-- Reachability through steps whose `start` labels all occur while a refresh
is in flight (the marker is set) — the hypothesis of the single-flight
claim. -/
inductive BusyTrace : SFState → SFState → Prop
  | refl (s : SFState) : BusyTrace s s
  | step {s s2 t : SFState} {l : SFLabel} :
      SFStep s l s2 → (l.isStart = true → s.marker.isSome = true) →
      BusyTrace s2 t → BusyTrace s t

/-- Initial state: one refresh in flight (promise 0, one request issued) and
`n` callers yet to enter. -/
def initSF (n : Nat) : SFState :=
  { marker := some 0, nextPid := 1, settled := [], fetches := 1,
    callers := List.replicate n .idle }

/-- Number of created but unsettled promises, i.e. refresh requests currently
in flight. -/
def inFlightRefreshes (s : SFState) : Nat := s.nextPid - s.settled.length

/-- Invariant of the single-flight machine reachable from `initSF`:
no promise beyond 0 is ever created, exactly one upstream request has been
issued, the marker only ever holds promise 0, every awaiting caller awaits
promise 0, every finished caller carries promise 0's settled result, only
promise 0 settles (at most once), and the marker is cleared only once
promise 0 has settled. -/
def SFInv (s : SFState) : Prop :=
  s.nextPid = 1 ∧ s.fetches = 1 ∧
  (s.marker = some 0 ∨ s.marker = none) ∧
  (∀ (i p : Nat), s.callers[i]? = some (CallerPhase.awaiting p) → p = 0) ∧
  (∀ (i r : Nat), s.callers[i]? = some (CallerPhase.done r) →
    s.settled.lookup 0 = some r) ∧
  (∀ pr ∈ s.settled, pr.1 = 0) ∧ s.settled.length ≤ 1 ∧
  (s.marker = none → (s.settled.lookup 0).isSome = true)

/-- Final state of the concrete demonstration trace: the in-flight refresh
settled with result 42, one caller joined it and finished. -/
def sfDemoFinal : SFState :=
  { marker := none, nextPid := 1, settled := [(0, 42)], fetches := 1,
    callers := [CallerPhase.done 42] }

/-- Concrete token set with both tokens present. -/
def demoTokens : TokenEndpointResponse :=
  { access_token := some "at", refresh_token := some "rt",
    expires_at := some 100 }

/-- Concrete credential set. -/
def demoCreds : Credentials :=
  { serverMetadata := { issuer := "https://id.kick.com" }, clientId := "cid",
    clientSecret := "sec", tokens := demoTokens }

/-- Concrete token-manager cache holding `demoCreds`. -/
def demoTokenCache : TokenCacheState :=
  { cachedCredentials := some demoCreds, cachedTokens := some demoTokens }

/-- Concrete full image cache: 50 distinct keys, entry `i` last used at
time `i`. -/
def demoCache : ImageCache :=
  (List.range MAX_CACHE_SIZE).map
    (fun i => ("k" ++ toString i, { value := "v", expiresAt := 0, lastUsed := i }))

/-! ## Concrete instances used by witnesses and counterexamples -/

/-- Concrete offline result with a display name. -/
def demoOffline : StatusResult :=
  { isLive := false, status := .offline, displayName := some "chan" }

/-- Concrete not-found result with a display name. -/
def demoNotFound : StatusResult :=
  { isLive := false, status := .not_found, displayName := some "chan" }

/-- Concrete live result. -/
def demoLive : StatusResult :=
  { isLive := true, status := .live, displayName := some "Chan" }

/-- Concrete single-channel state with a previous one-element snapshot. -/
def demoSingleState (prev : StatusResult) (ls : LastStatus) : ActionState :=
  { channels := ["chan"], lastStatus := ls, multiResults := some [prev] }

/-- Concrete nameless offline result. -/
def demoOffA : StatusResult := { isLive := false, status := .offline }

/-- Concrete nameless live result. -/
def demoLiveA : StatusResult := { isLive := true, status := .live }

/-- Concrete two-channel state with previous snapshot `[offline, offline]`. -/
def demoPairState : ActionState :=
  { channels := ["a", "b"], lastStatus := .offline,
    multiResults := some [demoOffA, demoOffA] }

/-- Concrete error result carrying a display name. -/
def demoErrorNamed : StatusResult :=
  { isLive := false, status := .error, displayName := some "Foo" }

/-- Concrete not-found result named `Bar`. -/
def demoBarNF : StatusResult :=
  { isLive := false, status := .not_found, displayName := some "Bar" }

/-- Concrete single-channel state configured with `foo`. -/
def demoFooState : ActionState := { channels := ["foo"] }

/-- Concrete three-tile collage input. -/
def demoCollageItems : List CollageItem :=
  [{ image := "a", isLive := true }, { image := "b", isLive := false },
   { image := "c", isLive := false }]

/-- Whether `sub` occurs as a contiguous substring of `s` (used to state the
junction coordinates appear in the border paths). -/
def strContainsSub (s sub : String) : Bool :=
  (List.range (s.data.length + 1)).any
    (fun i => sub.data.isPrefixOf (s.data.drop i))

/-! ## Lemmas: splitting, joining and chunking -/

theorem splitCh_ne_nil (c : Char) (l : List Char) : splitCh c l ≠ [] := by
  cases l with
  | nil => simp [splitCh]
  | cons x xs =>
    rw [splitCh]
    split <;> simp

theorem exists_cons_splitCh (c : Char) (l : List Char) :
    ∃ y ys, splitCh c l = y :: ys := by
  cases h : splitCh c l with
  | nil => exact absurd h (splitCh_ne_nil c l)
  | cons y ys => exact ⟨y, ys, rfl⟩

theorem splitCh_cons_ne {c x : Char} (xs : List Char) (hx : ¬ x = c)
    {y : List Char} {ys : List (List Char)} (hy : splitCh c xs = y :: ys) :
    splitCh c (x :: xs) = (x :: y) :: ys := by
  rw [splitCh, if_neg hx, hy]
  rfl

theorem length_le_of_mem_splitCh {c : Char} {l p : List Char}
    (h : p ∈ splitCh c l) : p.length ≤ l.length := by
  induction l generalizing p with
  | nil =>
    simp only [splitCh, List.mem_singleton] at h
    simp [h]
  | cons x xs ih =>
    obtain ⟨y, ys, hy⟩ := exists_cons_splitCh c xs
    by_cases hx : x = c
    · rw [splitCh, if_pos hx] at h
      rcases List.mem_cons.mp h with h1 | h1
      · simp [h1]
      · exact (ih h1).trans (by simp)
    · rw [splitCh_cons_ne xs hx hy] at h
      rcases List.mem_cons.mp h with h1 | h1
      · subst h1
        have hym : y ∈ splitCh c xs := by rw [hy]; exact List.mem_cons_self _ _
        have := ih hym
        simp only [List.length_cons]
        omega
      · have hpm : p ∈ splitCh c xs := by
          rw [hy]; exact List.mem_cons_of_mem _ h1
        exact (ih hpm).trans (by simp)

theorem not_mem_of_mem_splitCh {c : Char} {l p : List Char}
    (h : p ∈ splitCh c l) : c ∉ p := by
  induction l generalizing p with
  | nil =>
    simp only [splitCh, List.mem_singleton] at h
    simp [h]
  | cons x xs ih =>
    obtain ⟨y, ys, hy⟩ := exists_cons_splitCh c xs
    by_cases hx : x = c
    · rw [splitCh, if_pos hx] at h
      rcases List.mem_cons.mp h with h1 | h1
      · simp [h1]
      · exact ih h1
    · rw [splitCh_cons_ne xs hx hy] at h
      rcases List.mem_cons.mp h with h1 | h1
      · subst h1
        intro hc
        rcases List.mem_cons.mp hc with h2 | h2
        · exact hx h2.symm
        · exact ih (by rw [hy]; exact List.mem_cons_self _ _) h2
      · exact ih (by rw [hy]; exact List.mem_cons_of_mem _ h1)

theorem mem_of_mem_splitCh {c x : Char} {l p : List Char}
    (h : p ∈ splitCh c l) (hx : x ∈ p) : x ∈ l := by
  induction l generalizing p with
  | nil =>
    simp only [splitCh, List.mem_singleton] at h
    subst h
    simp at hx
  | cons z zs ih =>
    obtain ⟨y, ys, hy⟩ := exists_cons_splitCh c zs
    by_cases hz : z = c
    · rw [splitCh, if_pos hz] at h
      rcases List.mem_cons.mp h with h1 | h1
      · subst h1; simp at hx
      · exact List.mem_cons_of_mem _ (ih h1 hx)
    · rw [splitCh_cons_ne zs hz hy] at h
      rcases List.mem_cons.mp h with h1 | h1
      · subst h1
        rcases List.mem_cons.mp hx with h2 | h2
        · simp [h2]
        · exact List.mem_cons_of_mem _
            (ih (by rw [hy]; exact List.mem_cons_self _ _) h2)
      · exact List.mem_cons_of_mem _
          (ih (by rw [hy]; exact List.mem_cons_of_mem _ h1) hx)

theorem splitCh_append_cons (c : Char) (s t : List Char) :
    splitCh c (s ++ c :: t) = splitCh c s ++ splitCh c t := by
  induction s with
  | nil => simp [splitCh]
  | cons x xs ih =>
    by_cases hx : x = c
    · rw [List.cons_append, splitCh, if_pos hx, ih, splitCh, if_pos hx]
      rfl
    · obtain ⟨y, ys, hy⟩ := exists_cons_splitCh c xs
      have hy2 : splitCh c (xs ++ c :: t) = y :: (ys ++ splitCh c t) := by
        rw [ih, hy]; rfl
      rw [List.cons_append, splitCh_cons_ne _ hx hy2, splitCh_cons_ne _ hx hy]
      rfl

theorem splitCh_of_not_mem {c : Char} {l : List Char} (h : c ∉ l) :
    splitCh c l = [l] := by
  induction l with
  | nil => rfl
  | cons x xs ih =>
    have hx : ¬ x = c := fun he => h (by simp [he])
    have hxs : c ∉ xs := fun hc => h (List.mem_cons_of_mem _ hc)
    rw [splitCh_cons_ne xs hx (ih hxs)]

theorem joinNl_pair (s t : List Char) (rest : List (List Char)) :
    joinNl (s :: t :: rest) = s ++ nl :: joinNl (t :: rest) := rfl

theorem linesLe_joinNl {n : Nat} {ls : List (List Char)} (hne : ls ≠ [])
    (h : ∀ s ∈ ls, LinesLe n s) : LinesLe n (joinNl ls) := by
  induction ls with
  | nil => exact absurd rfl hne
  | cons s rest ih =>
    cases rest with
    | nil => exact h s (List.mem_cons_self _ _)
    | cons t rs =>
      rw [joinNl_pair]
      intro p hp
      rw [splitCh_append_cons] at hp
      rcases List.mem_append.mp hp with h1 | h1
      · exact h s (List.mem_cons_self _ _) p h1
      · exact ih (by simp) (fun u hu => h u (List.mem_cons_of_mem _ hu)) p h1

theorem chunksOf_eq_nil_iff {m : Nat} {l : List Char} :
    chunksOf m l = [] ↔ l = [] := by
  cases l with
  | nil => simp [chunksOf]
  | cons x xs => simp [chunksOf]

theorem chunksOf_mem_spec {m : Nat} :
    ∀ (n : Nat) (l : List Char), l.length ≤ n →
      ∀ q ∈ chunksOf m l, q.length ≤ max 1 m ∧ ∀ x ∈ q, x ∈ l := by
  intro n
  induction n with
  | zero =>
    intro l hl q hq
    have : l = [] := List.length_eq_zero.mp (Nat.le_zero.mp hl)
    subst this
    simp [chunksOf] at hq
  | succ n ih =>
    intro l hl q hq
    cases l with
    | nil => simp [chunksOf] at hq
    | cons x xs =>
      rw [chunksOf] at hq
      rcases List.mem_cons.mp hq with h1 | h1
      · subst h1
        refine ⟨List.length_take_le _ _, ?_⟩
        intro z hz
        exact List.mem_of_mem_take hz
      · have hlen : ((x :: xs).drop (max 1 m)).length ≤ n := by
          simp only [List.length_drop, List.length_cons]
          have h1m : 1 ≤ max 1 m := Nat.le_max_left 1 m
          simp only [List.length_cons] at hl
          omega
        obtain ⟨hq1, hq2⟩ := ih _ hlen q h1
        exact ⟨hq1, fun z hz => List.mem_of_mem_drop (hq2 z hz)⟩

/-! ## Lemmas: wrapText line bounds -/

theorem forceSplitLine_of_lt {m : Nat} {line : List Char} (h : m < line.length) :
    forceSplitLine m line =
      (if (((splitCh nl line).filter (fun s => decide (s ≠ []))).map
          (chunksOf m)).flatten = [] then line
       else joinNl ((((splitCh nl line).filter (fun s => decide (s ≠ []))).map
          (chunksOf m)).flatten)) := by
  rw [forceSplitLine, if_pos h]

theorem linesLe_forceSplitLine {m : Nat} (hm : 1 ≤ m) (line : List Char) :
    LinesLe m (forceSplitLine m line) := by
  by_cases hlen : m < line.length
  · rw [forceSplitLine_of_lt hlen]
    by_cases hcs : (((splitCh nl line).filter (fun s => decide (s ≠ []))).map
        (chunksOf m)).flatten = []
    · rw [if_pos hcs]
      intro p hp
      by_cases hpn : p = []
      · simp [hpn]
      · exfalso
        have hseg : p ∈ (splitCh nl line).filter (fun s => decide (s ≠ [])) := by
          rw [List.mem_filter]
          exact ⟨hp, by simpa using hpn⟩
        have : chunksOf m p ∈ ((splitCh nl line).filter
            (fun s => decide (s ≠ []))).map (chunksOf m) :=
          List.mem_map_of_mem _ hseg
        have hnil := (List.flatten_eq_nil_iff.mp hcs) _ this
        exact hpn (chunksOf_eq_nil_iff.mp hnil)
    · rw [if_neg hcs]
      apply linesLe_joinNl hcs
      intro s hs
      obtain ⟨a, ha, hsa⟩ := List.mem_flatten.mp hs
      obtain ⟨seg, hseg, rfl⟩ := List.mem_map.mp ha
      have hsegSplit : seg ∈ splitCh nl line := (List.mem_filter.mp hseg).1
      have hnonl : nl ∉ seg := not_mem_of_mem_splitCh hsegSplit
      obtain ⟨hslen, hsmem⟩ := chunksOf_mem_spec seg.length seg (le_refl _) s hsa
      have : nl ∉ s := fun hns => hnonl (hsmem nl hns)
      intro p hp
      rw [splitCh_of_not_mem this] at hp
      simp only [List.mem_singleton] at hp
      subst hp
      calc p.length ≤ max 1 m := hslen
        _ = m := Nat.max_eq_right hm
  · rw [forceSplitLine, if_neg hlen]
    intro p hp
    have := length_le_of_mem_splitCh hp
    omega

theorem wrapTextL_linesLe {text : List Char} {m : Nat} (hm : 1 ≤ m) :
    LinesLe m (wrapTextL text m) := by
  by_cases hl : text.length ≤ m
  · rw [wrapTextL, if_pos hl]
    intro p hp
    exact (length_le_of_mem_splitCh hp).trans hl
  · rw [wrapTextL, if_neg hl]
    apply linesLe_joinNl (by simp)
    intro s hs
    obtain ⟨line, _, rfl⟩ := List.mem_map.mp hs
    exact linesLe_forceSplitLine hm line

/-! ## C10: wrapText bounds every line and is the identity on short input -/

/-- C10: for `maxLength ≥ 1`, every newline-separated line of
`wrapText text maxLength` has length at most `maxLength` (over-long words are
force-split into chunks of at most `maxLength` characters), and the output
equals the input whenever the input's total length is at most `maxLength`. -/
theorem wrapText_spec (text : String) (maxLength : Nat) (hm : 1 ≤ maxLength) :
    (∀ p ∈ splitCh nl (wrapText text maxLength).data, p.length ≤ maxLength) ∧
    (text.length ≤ maxLength → wrapText text maxLength = text) := by
  constructor
  · intro p hp
    exact wrapTextL_linesLe hm p hp
  · intro hlen
    have hdata : wrapTextL text.data maxLength = text.data := by
      rw [wrapTextL, if_pos (show text.data.length ≤ maxLength from hlen)]
    show (wrapTextL text.data maxLength).asString = text
    rw [hdata]
    cases text
    rfl

/-- Witness for C10 at `text = "abc def"`, `maxLength = 3`. -/
theorem wrapText_spec_witness :
    (∀ p ∈ splitCh nl (wrapText "abc def" 3).data, p.length ≤ 3) ∧
    (("abc def" : String).length ≤ 3 → wrapText "abc def" 3 = "abc def") :=
  wrapText_spec "abc def" 3 (by decide)

/-! ## C1: all-not-found multi refresh renders the placeholder and leaves the
configured channel list untouched -/

/-- C1: in a multi-channel refresh (`n ≥ 2` configured channels) where every
fetched channel resolves as `not_found`, `refresh` returns right after
issuing the red placeholder image and the `Not Found` title, the state —
in particular the configured channel list — entirely unchanged, so the list
still has length `n`. -/
theorem refresh_allNotFound_preserves_channels (st : ActionState)
    (outcomes : List (Except Unit StatusResult)) (now n : Nat)
    (hn : 2 ≤ n) (hch : st.channels.length = n) (hlen : outcomes.length = n)
    (hnf : ∀ o ∈ outcomes, ∃ r, o = Except.ok r ∧ r.status = Status.not_found) :
    refresh st outcomes now =
      (st, [Cmd.setImage "imgs/actions/red.png", Cmd.setTitle "Not Found"]) ∧
    (refresh st outcomes now).1.channels.length = n := by
  have h0 : ¬ st.channels.length = 0 := by omega
  have h1 : ¬ st.channels.length = 1 := by omega
  have hvalid : validResultsOf (allResultsOf st.channels outcomes) = [] := by
    rw [validResultsOf, List.filter_eq_nil_iff]
    intro r hr
    rw [allResultsOf] at hr
    obtain ⟨p, hp, rfl⟩ := List.mem_map.mp hr
    obtain ⟨r0, hr0, hst⟩ := hnf p.2 ((List.of_mem_zip hp).2)
    rw [hr0]
    simp [hst]
  have hall : (allResultsOf st.channels outcomes).length = n := by
    rw [allResultsOf, List.length_map, List.length_zip, hch, hlen]
    omega
  have hpos : 0 < (allResultsOf st.channels outcomes).length := by omega
  have key : refresh st outcomes now =
      (st, [Cmd.setImage "imgs/actions/red.png", Cmd.setTitle "Not Found"]) := by
    simp only [refresh, if_neg h0, if_neg h1, hvalid]
    rw [if_pos ⟨List.length_nil, hpos⟩]
  exact ⟨key, by rw [key]; exact hch⟩

/-- Witness for C1: a 3-channel configuration whose three fetches all resolve
`not_found`; the state (hence the channel list, length 3) is unchanged. -/
theorem refresh_allNotFound_witness :
    refresh { channels := ["x", "y", "z"] }
        [Except.ok { isLive := false, status := .not_found },
         Except.ok { isLive := false, status := .not_found },
         Except.ok { isLive := false, status := .not_found }] 0 =
      (({ channels := ["x", "y", "z"] } : ActionState),
       [Cmd.setImage "imgs/actions/red.png", Cmd.setTitle "Not Found"]) ∧
    (refresh { channels := ["x", "y", "z"] }
        [Except.ok { isLive := false, status := .not_found },
         Except.ok { isLive := false, status := .not_found },
         Except.ok { isLive := false, status := .not_found }] 0).1.channels.length = 3 :=
  refresh_allNotFound_preserves_channels _ _ 0 3 (by omega) (by decide) (by decide)
    (by intro o ho
        fin_cases ho <;> exact ⟨_, rfl, rfl⟩)

/-! ## C3: single-channel transition detection -/

theorem transitionTargets_singleton (c : String) (oldR newR : StatusResult)
    (hc : c ≠ "") :
    transitionTargets [c] [oldR] [newR] =
      if oldR.isLive = false ∧ newR.isLive = true then [c] else [] := by
  cases h1 : oldR.isLive <;> cases h2 : newR.isLive <;>
    simp [transitionTargets, setAdd, h1, h2, hc, List.enum, List.enumFrom]

/-- C3 counterexample: in single-channel mode with a previous snapshot whose
status is `not_found` (so the previous aggregate status is not `offline`),
a new live result still fires the transition: the alerting set becomes the
configured channel and the alert cycle starts. This contradicts the claim
that only a previous `offline` status followed by `live` fires. -/
theorem refresh_single_transition_counterexample :
    ((refresh (demoSingleState demoNotFound .not_found) [Except.ok demoLive]
        0).1.alertingChannels = ["chan"] ∧
     (refresh (demoSingleState demoNotFound .not_found) [Except.ok demoLive]
        0).1.alertTimerActive = true) ∧
    (demoSingleState demoNotFound .not_found).lastStatus ≠ .offline := by
  exact ⟨⟨rfl, rfl⟩, by decide⟩

/-- C3 amended: in single-channel mode, once a previous one-element result
snapshot exists (every refresh after the first), the transition goes through
the positional multi-result branch and fires exactly when the previous
snapshot result was not live — whatever its status (`offline`, `error` or
`not_found`) — and the new result is live; the alerting set then holds the
configured slug. The `lastStatus = offline` rule applies only when no
previous snapshot exists. -/
theorem refresh_single_transition (st : ActionState) (c : String)
    (oldR newR : StatusResult) (now : Nat)
    (hch : st.channels = [c]) (hc : c ≠ "")
    (hold : st.multiResults = some [oldR])
    (halert : st.alertTimerActive = false) :
    ((refresh st [Except.ok newR] now).1.alertTimerActive = true ↔
      oldR.isLive = false ∧ newR.isLive = true) ∧
    (oldR.isLive = false → newR.isLive = true →
      (refresh st [Except.ok newR] now).1.alertingChannels = [c]) := by
  have hkey : refresh st [Except.ok newR] now =
      afterFetch { st with multiResults := some [newR] } st.multiResults newR now := by
    simp [refresh, hch]
  rw [hkey]
  simp only [afterFetch, hold, transitionTargets_singleton c oldR newR hc, hch]
  by_cases hP : oldR.isLive = false ∧ newR.isLive = true
  · simp [hP, startAlert]
  · simp only [if_neg hP, List.length_nil, Nat.lt_irrefl, if_neg (by omega : ¬ 0 < 0)]
    constructor
    · simp [halert, hP]
    · intro hA hB
      exact absurd ⟨hA, hB⟩ hP

/-- Witness for C3 (amended) at a concrete offline-to-live single-channel
refresh. -/
theorem refresh_single_transition_witness :
    ((refresh (demoSingleState demoOffline .offline) [Except.ok demoLive]
        7).1.alertTimerActive = true ↔
      demoOffline.isLive = false ∧ demoLive.isLive = true) ∧
    (demoOffline.isLive = false → demoLive.isLive = true →
      (refresh (demoSingleState demoOffline .offline) [Except.ok demoLive]
        7).1.alertingChannels = ["chan"]) :=
  refresh_single_transition (demoSingleState demoOffline .offline) "chan"
    demoOffline demoLive 7 rfl (by decide) rfl rfl

/-! ## C4: multi-channel positional transition detection -/

/-- C4: in multi-channel mode with index-aligned previous and new result
sequences (both matching the 2 configured channels), transitions are matched
positionally with the configured slug as the stable identifier: previous
`[offline, offline]` and new `[live, offline]` put exactly the first
configured channel in the alerting set and start the alert cycle. -/
theorem refresh_multi_positional_transition (st : ActionState) (c1 c2 : String)
    (o1 o2 n1 n2 : StatusResult) (now : Nat)
    (hch : st.channels = [c1, c2]) (hc1 : c1 ≠ "")
    (hold : st.multiResults = some [o1, o2])
    (ho1s : o1.status = .offline) (ho2s : o2.status = .offline)
    (ho1 : o1.isLive = false) (ho2 : o2.isLive = false)
    (hn1s : n1.status = .live) (hn2s : n2.status = .offline)
    (hn1 : n1.isLive = true) (hn2 : n2.isLive = false) :
    (refresh st [Except.ok n1, Except.ok n2] now).1.alertingChannels = [c1] ∧
    (refresh st [Except.ok n1, Except.ok n2] now).1.alertTimerActive = true := by
  have hvalid : validResultsOf [n1, n2] = [n1, n2] := by
    simp [validResultsOf, hn1s, hn2s]
  have htrans : transitionTargets [c1, c2] [o1, o2] [n1, n2] = [c1] := by
    simp [transitionTargets, setAdd, List.enum, List.enumFrom, ho1, hn1, hn2, hc1]
  have hkey : refresh st [Except.ok n1, Except.ok n2] now =
      afterFetch { st with multiResults := some [n1, n2] } st.multiResults
        (buildMultiResult [n1, n2]) now := by
    simp only [refresh, hch]
    simp [allResultsOf, hvalid]
  rw [hkey]
  simp only [afterFetch, hold, hch, htrans]
  simp [startAlert]

/-! ## C7: channel-spec parsing and empty configuration -/

theorem dropWhile_eq_self_of_prefix {α : Type} {p : α → Bool} {l t : List α}
    (hpre : t <+: l) (hl : l.dropWhile p = l) : t.dropWhile p = t := by
  cases t with
  | nil => rfl
  | cons x t2 =>
    obtain ⟨rest, hrest⟩ := hpre
    have hx : ¬ p x = true := by
      intro hpx
      have h1 : l.dropWhile p = (t2 ++ rest).dropWhile p := by
        rw [← hrest, List.cons_append, List.dropWhile_cons_of_pos hpx]
      have h2 : ((t2 ++ rest).dropWhile p).length ≤ (t2 ++ rest).length :=
        ((List.dropWhile_suffix p).sublist).length_le
      have h3 := congrArg List.length (hl.symm.trans h1)
      rw [← hrest] at h3
      simp only [List.cons_append, List.length_cons, List.length_append] at h3
      simp only [List.length_append] at h2
      omega
    rw [List.dropWhile_cons_of_neg hx]

theorem trimChars_idem (l : List Char) : trimChars (trimChars l) = trimChars l := by
  have hAdrop : (l.dropWhile isJsWhitespace).dropWhile isJsWhitespace =
      l.dropWhile isJsWhitespace := List.dropWhile_idempotent _ _
  have hsuf : (l.dropWhile isJsWhitespace).reverse.dropWhile isJsWhitespace <:+
      (l.dropWhile isJsWhitespace).reverse := List.dropWhile_suffix _
  have hpre : trimChars l <+: l.dropWhile isJsWhitespace := by
    rw [trimChars]
    exact List.reverse_suffix.mp (by simpa using hsuf)
  have h1 : (trimChars l).dropWhile isJsWhitespace = trimChars l :=
    dropWhile_eq_self_of_prefix hpre hAdrop
  have h2 : (trimChars l).reverse.dropWhile isJsWhitespace = (trimChars l).reverse := by
    rw [trimChars, List.reverse_reverse]
    exact List.dropWhile_idempotent _ _
  calc trimChars (trimChars l)
      = ((trimChars l).reverse.dropWhile isJsWhitespace).reverse := by
        rw [trimChars, h1]
    _ = trimChars l := by rw [h2, List.reverse_reverse]

theorem jsTrim_idem (s : String) : jsTrim (jsTrim s) = jsTrim s := by
  show (trimChars (trimChars s.data).asString.data).asString = _
  rw [show ((trimChars s.data).asString).data = trimChars s.data from rfl,
    trimChars_idem]
  rfl

/-- C7: for every raw channel-spec value, `configureChannel` derives the
channel list by splitting on comma, trimming, dropping empties and capping
at 4 (so the list has at most 4 entries, every entry is non-empty and
trim-stable, and the list is an order-preserving selection of the trimmed
split pieces); when the parsed list is empty, the stored channel list is
cleared, both timers are cancelled, and the error placeholder render is
issued without starting a refresh. -/
theorem configureChannel_spec (channelValue : Option String) (st : ActionState) :
    (parseChannels channelValue).length ≤ 4 ∧
    (∀ c ∈ parseChannels channelValue, 0 < c.length ∧ jsTrim c = c) ∧
    (parseChannels channelValue).Sublist
      ((jsSplitOn ',' (channelValue.getD "")).map jsTrim) ∧
    (parseChannels channelValue = [] →
      configureChannel channelValue st =
        ({ st with channels := [], pollTimerActive := false,
                   alertTimerActive := false },
         [Cmd.setTitle "No Channel", Cmd.setImage "imgs/actions/red.png"],
         false)) := by
  refine ⟨List.length_take_le _ _, ?_, ?_, ?_⟩
  · intro c hc
    rw [parseChannels] at hc
    have hc2 := List.mem_of_mem_take hc
    rw [List.mem_filter] at hc2
    obtain ⟨hmem, hlen⟩ := hc2
    obtain ⟨s, _, rfl⟩ := List.mem_map.mp hmem
    exact ⟨by simpa using hlen, jsTrim_idem s⟩
  · rw [parseChannels]
    exact (List.take_sublist _ _).trans (List.filter_sublist _)
  · intro hempty
    simp only [configureChannel, hempty]
    simp

/-- Witness for C7: the spec `" , "` parses to the empty list and triggers
the clearing branch. -/
theorem configureChannel_spec_witness :
    configureChannel (some " , ") { channels := ["x"] } =
      (({ channels := [] } : ActionState),
       [Cmd.setTitle "No Channel", Cmd.setImage "imgs/actions/red.png"],
       false) :=
  (configureChannel_spec (some " , ") { channels := ["x"] }).2.2.2 (by decide)

/-! ## C8: single-channel rendering -/

/-- C8 counterexample: a single-channel render of an error-status result with
display name `Foo` sets the title `"foo\nNot Found"` (the configured channel
plus the literal `Not Found`), not the claimed `"Foo\nERROR"`
(`"<name>\n<STATUS>"` uppercased). -/
theorem render_single_error_counterexample :
    render demoFooState demoErrorNamed false =
      [Cmd.setTitle "foo\nNot Found", Cmd.setImage "imgs/actions/red.png"] ∧
    demoErrorNamed.isLive = false ∧
    ("foo\nNot Found" : String) ≠ "Foo\nERROR" := by
  exact ⟨rfl, rfl, by decide⟩

/-- C8 amended: single-channel rendering.
An error-status result, or one whose display name is falsy, renders
`"<channel[0] or Unknown>\nNot Found"` with the static red image.
A not-found or offline result with a truthy name renders
`"<name>\nNOT FOUND"` / `"<name>\nOFFLINE"` with the result's precomputed
image when present, else the static red indicator.
A live result clears the title; with a truthy raw image the image is
regenerated with a text overlay (title = display name, subtitle = category,
default `"Live"`, wrapped at width 15), otherwise the precomputed image or
the static green indicator is used. -/
theorem render_single_spec (st : ActionState) (result : StatusResult)
    (c : String) (hch : st.channels = [c]) :
    ((result.status = .error ∨ jsFalsyStr result.displayName = true) →
      render st result false =
        [Cmd.setTitle (jsOrS (some c) "Unknown" ++ "\nNot Found"),
         Cmd.setImage "imgs/actions/red.png"]) ∧
    (∀ d, result.displayName = some d → ¬ d = "" → result.isLive = false →
      result.status = .not_found →
      render st result false =
        [Cmd.setTitle (d ++ "\nNOT FOUND"),
         Cmd.setImage ((result.base64Image).getD "imgs/actions/red.png")]) ∧
    (∀ d, result.displayName = some d → ¬ d = "" → result.isLive = false →
      result.status = .offline →
      render st result false =
        [Cmd.setTitle (d ++ "\nOFFLINE"),
         Cmd.setImage ((result.base64Image).getD "imgs/actions/red.png")]) ∧
    (∀ d raw, result.displayName = some d → ¬ d = "" →
      result.status = .live → result.rawBase64Image = some raw → ¬ raw = "" →
      render st result false =
        [Cmd.setTitle "",
         Cmd.setImage (processedImageValue raw true
           (some { title := d,
                   subtitle := some (wrapText (jsOrS result.category "Live") 15) }))]) ∧
    (∀ d, result.displayName = some d → ¬ d = "" →
      result.status = .live → result.isLive = true →
      jsFalsyStr result.rawBase64Image = true →
      render st result false =
        [Cmd.setTitle "",
         Cmd.setImage ((result.base64Image).getD "imgs/actions/green.png")]) := by
  refine ⟨?_, ?_, ?_, ?_, ?_⟩
  · intro hcond
    rcases hcond with h | h <;> simp [render, hch, h]
  · intro d hd hdne hlive hst
    have hfd : jsFalsyStr (some d) = false := by simp [jsFalsyStr, hdne]
    cases hb : result.base64Image <;>
      simp [render, renderTail, hch, hd, hst, hb, hlive, hfd,
        String.append_assoc]
  · intro d hd hdne hlive hst
    have hfd : jsFalsyStr (some d) = false := by simp [jsFalsyStr, hdne]
    have htu : jsToUpper (Status.text Status.offline) = "OFFLINE" := by decide
    cases hb : result.base64Image <;>
      simp [render, renderTail, hch, hd, hst, hb, hlive, hfd, htu,
        String.append_assoc]
  · intro d raw hd hdne hst hraw hrawne
    have hfd : jsFalsyStr (some d) = false := by simp [jsFalsyStr, hdne]
    have hfraw : jsFalsyStr (some raw) = false := by simp [jsFalsyStr, hrawne]
    simp [render, renderTail, hch, hd, hst, hraw, hfd, hfraw]
  · intro d hd hdne hst hlive hraw
    have hfd : jsFalsyStr (some d) = false := by simp [jsFalsyStr, hdne]
    cases hb : result.base64Image <;>
      simp [render, renderTail, hch, hd, hst, hb, hlive, hraw, hfd]

/-- Witness for C8 (amended) at a concrete not-found result named `Bar`. -/
theorem render_single_spec_witness :
    render demoFooState demoBarNF false =
      [Cmd.setTitle ("Bar" ++ "\nNOT FOUND"),
       Cmd.setImage ((demoBarNF.base64Image).getD "imgs/actions/red.png")] :=
  (render_single_spec demoFooState demoBarNF "foo" rfl).2.1 "Bar" rfl
    (by decide) rfl rfl

/-! ## C9: three-tile collage geometry -/

/-- C9: `generateCollageSvg` with exactly 3 items assembles the collage
document from exactly 3 clip-path definitions, 3 fill patterns and 3 border
paths, using the inverted-Y geometry (one top wedge and two lower wedges);
the top border path carries the `y = 16.5` junction and both side border
paths the `y = 17.5` junction. -/
theorem generateCollageSvg_three_items (items : List CollageItem)
    (hlen : items.length = 3) :
    (collageClipDefs items.length).length = 3 ∧
    (items.enum.map (fun p => collagePattern p.1 p.2)).length = 3 ∧
    (collageBorders items items.length).length = 3 ∧
    collageGeometries items.length =
      [("polygon", "points=\"50,50 0,17 0,0 100,0 100,17\""),
       ("polygon", "points=\"50,50 100,17 100,100 50,100\""),
       ("polygon", "points=\"50,50 50,100 0,100 0,17\"")] ∧
    (collageBorderPaths items.length).length = 3 ∧
    strContainsSub ((collageBorderPaths items.length).headD "") "16.5" = true ∧
    (∀ d ∈ (collageBorderPaths items.length).tail,
      strContainsSub d "17.5" = true) ∧
    (∀ overlay, generateCollageSvg items overlay =
      svgDataUri (collageSvgText items overlay)) := by
  obtain ⟨a, items1, rfl⟩ : ∃ a items1, items = a :: items1 := by
    cases items with
    | nil => simp at hlen
    | cons a items1 => exact ⟨a, items1, rfl⟩
  obtain ⟨b, items2, rfl⟩ : ∃ b items2, items1 = b :: items2 := by
    cases items1 with
    | nil => simp at hlen
    | cons b items2 => exact ⟨b, items2, rfl⟩
  obtain ⟨c, items3, rfl⟩ : ∃ c items3, items2 = c :: items3 := by
    cases items2 with
    | nil => simp at hlen
    | cons c items3 => exact ⟨c, items3, rfl⟩
  obtain rfl : items3 = [] := by
    simpa using hlen
  refine ⟨show (collageClipDefs 3).length = 3 by decide, rfl, rfl,
    show collageGeometries 3 = _ by decide,
    show (collageBorderPaths 3).length = 3 by decide,
    show strContainsSub ((collageBorderPaths 3).headD "") "16.5" = true by decide,
    show ∀ d ∈ (collageBorderPaths 3).tail, strContainsSub d "17.5" = true by decide,
    ?_⟩
  intro overlay
  rfl

/-- Witness for C9 at three concrete tiles. -/
theorem generateCollageSvg_three_items_witness :
    (collageClipDefs demoCollageItems.length).length = 3 ∧
    (demoCollageItems.enum.map (fun p => collagePattern p.1 p.2)).length = 3 ∧
    (collageBorders demoCollageItems demoCollageItems.length).length = 3 ∧
    collageGeometries demoCollageItems.length =
      [("polygon", "points=\"50,50 0,17 0,0 100,0 100,17\""),
       ("polygon", "points=\"50,50 100,17 100,100 50,100\""),
       ("polygon", "points=\"50,50 50,100 0,100 0,17\"")] ∧
    (collageBorderPaths demoCollageItems.length).length = 3 ∧
    strContainsSub ((collageBorderPaths demoCollageItems.length).headD "")
      "16.5" = true ∧
    (∀ d ∈ (collageBorderPaths demoCollageItems.length).tail,
      strContainsSub d "17.5" = true) ∧
    (∀ overlay, generateCollageSvg demoCollageItems overlay =
      svgDataUri (collageSvgText demoCollageItems overlay)) :=
  generateCollageSvg_three_items demoCollageItems rfl

/-- Witness for C4 at concrete two-channel states. -/
theorem refresh_multi_positional_transition_witness :
    (refresh demoPairState [Except.ok demoLiveA, Except.ok demoOffA]
        0).1.alertingChannels = ["a"] ∧
    (refresh demoPairState [Except.ok demoLiveA, Except.ok demoOffA]
        0).1.alertTimerActive = true :=
  refresh_multi_positional_transition demoPairState "a" "b" demoOffA demoOffA
    demoLiveA demoOffA 0 rfl (by decide) rfl rfl rfl rfl rfl rfl rfl rfl rfl

/-! ## C6: token refresh failures leave the cache untouched -/

/-- C6: every token refresh failure of the three claimed kinds — a missing
(or empty) refresh token, a rejected network fetch, and a non-2xx upstream
response — surfaces to the caller as an explicit error, and the in-memory
cached token set and cached credential set are exactly what they were before
the attempt. -/
theorem refreshTokens_failure_preserves_cache (st : TokenCacheState)
    (credentials : Credentials) (currentTokens : TokenEndpointResponse)
    (fetch : RefreshFetch) (save : SaveOutcome) (nowSec : Nat)
    (hfail : jsFalsyStr currentTokens.refresh_token = true ∨
      fetch = RefreshFetch.netError ∨ ∃ t, fetch = RefreshFetch.httpError t) :
    (∃ e, (refreshTokensRun st credentials currentTokens fetch save nowSec).2 =
      Except.error e) ∧
    (refreshTokensRun st credentials currentTokens fetch save nowSec).1 = st := by
  rcases hfail with h | h | ⟨t, h⟩
  · refine ⟨⟨"Kick credentials missing refresh token. Re-run the auth helper CLI.", ?_⟩, ?_⟩ <;>
      simp [refreshTokensRun, h]
  · subst h
    by_cases hm : jsFalsyStr currentTokens.refresh_token = true
    · refine ⟨⟨"Kick credentials missing refresh token. Re-run the auth helper CLI.", ?_⟩, ?_⟩ <;>
        simp [refreshTokensRun, hm]
    · refine ⟨⟨"fetch failed", ?_⟩, ?_⟩ <;> simp [refreshTokensRun, hm]
  · subst h
    by_cases hm : jsFalsyStr currentTokens.refresh_token = true
    · refine ⟨⟨"Kick credentials missing refresh token. Re-run the auth helper CLI.", ?_⟩, ?_⟩ <;>
        simp [refreshTokensRun, hm]
    · refine ⟨⟨"Token refresh failed: " ++ t, ?_⟩, ?_⟩ <;>
        simp [refreshTokensRun, hm]

/-- Witness for C6 at a concrete populated cache and a rejected fetch. -/
theorem refreshTokens_failure_witness :
    (∃ e, (refreshTokensRun demoTokenCache demoCreds demoTokens
      RefreshFetch.netError SaveOutcome.ok 0).2 = Except.error e) ∧
    (refreshTokensRun demoTokenCache demoCreds demoTokens
      RefreshFetch.netError SaveOutcome.ok 0).1 = demoTokenCache :=
  refreshTokens_failure_preserves_cache demoTokenCache demoCreds demoTokens
    RefreshFetch.netError SaveOutcome.ok 0 (Or.inr (Or.inl rfl))

/-! ## C5: image cache capacity and LRU eviction -/

theorem mem_cacheDelete {c : ImageCache} {k : String} {p : String × CacheEntry} :
    p ∈ cacheDelete c k ↔ p ∈ c ∧ ¬ p.1 = k := by
  simp [cacheDelete]

theorem cacheDelete_sublist (c : ImageCache) (k : String) :
    (cacheDelete c k).Sublist c := List.filter_sublist c

theorem cacheDelete_length_of_mem {c : ImageCache}
    (hnd : (c.map Prod.fst).Nodup) {k : String} (hk : k ∈ c.map Prod.fst) :
    (cacheDelete c k).length + 1 = c.length := by
  induction c with
  | nil => simp at hk
  | cons x xs ih =>
    rw [List.map_cons, List.nodup_cons] at hnd
    rw [List.map_cons, List.mem_cons] at hk
    rcases hk with hx | hx
    · have hxs : cacheDelete xs k = xs := by
        rw [cacheDelete, List.filter_eq_self]
        intro p hp
        simp only [decide_eq_true_eq]
        intro hpk
        exact hnd.1 (by rw [← hx, ← hpk]; exact List.mem_map_of_mem Prod.fst hp)
      have hpx : (decide (x.1 ≠ k)) = false := by
        subst hx; simp
      rw [cacheDelete, List.filter_cons, hpx]
      simp only [Bool.false_eq_true, if_false, List.length_cons]
      show (cacheDelete xs k).length + 1 = xs.length + 1
      rw [hxs]
    · by_cases hx1 : x.1 = k
      · exact absurd (hx1 ▸ hx) hnd.1
      · have hpx : (decide (x.1 ≠ k)) = true := by simp [hx1]
        rw [cacheDelete, List.filter_cons, hpx]
        simp only [if_true, List.length_cons]
        have hih := ih hnd.2 hx
        rw [cacheDelete] at hih
        omega

theorem deleteEntries_spec (ds : List (String × CacheEntry)) :
    ∀ (c : ImageCache), (c.map Prod.fst).Nodup →
      (ds.map Prod.fst).Nodup →
      (∀ p ∈ ds, p.1 ∈ c.map Prod.fst) →
      (ds.foldl (fun acc p => cacheDelete acc p.1) c).length + ds.length =
        c.length ∧
      (∀ q, q ∈ ds.foldl (fun acc p => cacheDelete acc p.1) c ↔
        q ∈ c ∧ q.1 ∉ ds.map Prod.fst) ∧
      ((ds.foldl (fun acc p => cacheDelete acc p.1) c).map Prod.fst).Nodup := by
  induction ds with
  | nil =>
    intro c hnd _ _
    exact ⟨by simp, by simp, hnd⟩
  | cons d ds ih =>
    intro c hnd hdnd hsub
    rw [List.map_cons, List.nodup_cons] at hdnd
    have hdmem : d.1 ∈ c.map Prod.fst := hsub d (List.mem_cons_self _ _)
    have hc1nd : ((cacheDelete c d.1).map Prod.fst).Nodup :=
      ((cacheDelete_sublist c d.1).map Prod.fst).nodup hnd
    have hkeys1 : ∀ p ∈ ds, p.1 ∈ (cacheDelete c d.1).map Prod.fst := by
      intro p hp
      obtain ⟨q, hq, hqk⟩ := List.mem_map.mp (hsub p (List.mem_cons_of_mem _ hp))
      refine List.mem_map.mpr ⟨q, ?_, hqk⟩
      rw [mem_cacheDelete]
      refine ⟨hq, ?_⟩
      intro hq1
      apply hdnd.1
      rw [← hq1, hqk]
      exact List.mem_map_of_mem Prod.fst hp
    obtain ⟨hL, hM, hN⟩ := ih (cacheDelete c d.1) hc1nd hdnd.2 hkeys1
    have hdel := cacheDelete_length_of_mem hnd hdmem
    refine ⟨?_, ?_, by simpa only [List.foldl_cons] using hN⟩
    · simp only [List.foldl_cons, List.length_cons]
      omega
    · intro q
      simp only [List.foldl_cons]
      rw [hM q, mem_cacheDelete]
      simp only [List.map_cons, List.mem_cons, not_or, and_assoc]

theorem foldl_range_deleteIndex (l : ImageCache) (n : Nat) (init : ImageCache) :
    (List.range n).foldl (deleteIndexStep l) init =
      (l.take n).foldl (fun acc p => cacheDelete acc p.1) init := by
  induction n with
  | zero => simp
  | succ n ih =>
    rw [List.range_succ, List.foldl_append, ih, List.take_succ, List.foldl_append]
    cases h : l[n]? with
    | none => simp [deleteIndexStep, h]
    | some x => simp [deleteIndexStep, h]

theorem pruneCache_eq_fold (c : ImageCache) :
    pruneCache c = ((sortCacheByLastUsed c).take EVICT_COUNT).foldl
      (fun acc p => cacheDelete acc p.1) c := by
  rw [pruneCache]
  exact foldl_range_deleteIndex (sortCacheByLastUsed c) EVICT_COUNT c

theorem pruneCache_spec (c : ImageCache) (hnd : (c.map Prod.fst).Nodup)
    (hlen : c.length = MAX_CACHE_SIZE) :
    (pruneCache c).length = MAX_CACHE_SIZE - EVICT_COUNT ∧
    ((pruneCache c).map Prod.fst).Nodup ∧
    (∀ p ∈ (sortCacheByLastUsed c).take EVICT_COUNT, p ∈ c) ∧
    (∀ e2 ∈ (sortCacheByLastUsed c).take EVICT_COUNT, ∀ f ∈ pruneCache c,
      e2.2.lastUsed ≤ f.2.lastUsed) := by
  have hperm : List.Perm (sortCacheByLastUsed c) c := List.perm_insertionSort _ _
  have hsorted : List.Sorted cacheLe (sortCacheByLastUsed c) :=
    List.sorted_insertionSort _ _
  have hsnd : ((sortCacheByLastUsed c).map Prod.fst).Nodup :=
    ((hperm.map Prod.fst).nodup_iff).mpr hnd
  have hslen : (sortCacheByLastUsed c).length = MAX_CACHE_SIZE :=
    hperm.length_eq.trans hlen
  have hdnd : (((sortCacheByLastUsed c).take EVICT_COUNT).map Prod.fst).Nodup :=
    ((List.take_sublist _ _).map Prod.fst).nodup hsnd
  have hmemc : ∀ p ∈ (sortCacheByLastUsed c).take EVICT_COUNT, p ∈ c :=
    fun p hp => hperm.subset (List.mem_of_mem_take hp)
  have hsub : ∀ p ∈ (sortCacheByLastUsed c).take EVICT_COUNT,
      p.1 ∈ c.map Prod.fst :=
    fun p hp => List.mem_map_of_mem Prod.fst (hmemc p hp)
  have hdlen : ((sortCacheByLastUsed c).take EVICT_COUNT).length = EVICT_COUNT := by
    rw [List.length_take, hslen]
    decide
  obtain ⟨hL, hM, hN⟩ :=
    deleteEntries_spec ((sortCacheByLastUsed c).take EVICT_COUNT) c hnd hdnd hsub
  rw [← pruneCache_eq_fold] at hL hM hN
  refine ⟨by omega, hN, hmemc, ?_⟩
  intro e2 he2 f hf
  have hfc := (hM f).mp hf
  have hfs : f ∈ sortCacheByLastUsed c := hperm.mem_iff.mpr hfc.1
  have hsplit := List.take_append_drop EVICT_COUNT (sortCacheByLastUsed c)
  have hpw : ∀ a ∈ (sortCacheByLastUsed c).take EVICT_COUNT,
      ∀ b ∈ (sortCacheByLastUsed c).drop EVICT_COUNT, cacheLe a b := by
    have hs2 : List.Pairwise cacheLe
        ((sortCacheByLastUsed c).take EVICT_COUNT ++
          (sortCacheByLastUsed c).drop EVICT_COUNT) := by
      rw [hsplit]
      exact hsorted
    exact (List.pairwise_append.mp hs2).2.2
  rw [← hsplit] at hfs
  rcases List.mem_append.mp hfs with hft | hfd
  · exact absurd (List.mem_map_of_mem Prod.fst hft) hfc.2
  · exact hpw e2 he2 f hfd

theorem cacheSet_length_le (c : ImageCache) (k : String) (e : CacheEntry) :
    (cacheSet c k e).length ≤ c.length + 1 := by
  rw [cacheSet]
  split
  · simp
  · simp

theorem cacheSet_length_of_mem {c : ImageCache} {k : String}
    (h : c.any (fun p => decide (p.1 = k)) = true) (e : CacheEntry) :
    (cacheSet c k e).length = c.length := by
  rw [cacheSet, if_pos h]
  simp

theorem cacheSet_keys_nodup {c : ImageCache} (hnd : (c.map Prod.fst).Nodup)
    (k : String) (e : CacheEntry) :
    ((cacheSet c k e).map Prod.fst).Nodup := by
  rw [cacheSet]
  split
  case isTrue h =>
    have hmapeq : (c.map (fun p => if p.1 = k then (k, e) else p)).map Prod.fst =
        c.map Prod.fst := by
      rw [List.map_map]
      apply List.map_congr_left
      intro p _
      by_cases hpk : p.1 = k
      · simp [Function.comp, hpk]
      · simp [Function.comp, hpk]
    rw [hmapeq]
    exact hnd
  case isFalse h =>
    rw [List.map_append]
    refine List.Nodup.append hnd (by simp) ?_
    intro a ha hb
    simp only [List.map_cons, List.map_nil, List.mem_singleton] at hb
    subst hb
    apply h
    rw [List.any_eq_true]
    obtain ⟨p, hp, hpk⟩ := List.mem_map.mp ha
    exact ⟨p, hp, by simp [hpk]⟩

theorem cacheMiss_ok {c : ImageCache} (hnd : (c.map Prod.fst).Nodup)
    (hlen : c.length ≤ MAX_CACHE_SIZE) (key : String) (e : CacheEntry) :
    CacheOk (cacheSet (if MAX_CACHE_SIZE ≤ c.length then pruneCache c else c)
      key e) := by
  by_cases hge : MAX_CACHE_SIZE ≤ c.length
  · rw [if_pos hge]
    have h50 : c.length = MAX_CACHE_SIZE := le_antisymm hlen hge
    obtain ⟨hp40, hpnd, _, _⟩ := pruneCache_spec c hnd h50
    refine ⟨cacheSet_keys_nodup hpnd _ _, ?_⟩
    have hle := cacheSet_length_le (pruneCache c) key e
    have hm : MAX_CACHE_SIZE = 50 := rfl
    have he : EVICT_COUNT = 10 := rfl
    omega
  · rw [if_neg hge]
    refine ⟨cacheSet_keys_nodup hnd _ _, ?_⟩
    have hle := cacheSet_length_le c key e
    omega

theorem getProcessedImage_preserves {c : ImageCache} (now : Nat) (uri : String)
    (live : Bool) (ov : Option TextOverlay) (h : CacheOk c) :
    CacheOk (getProcessedImage c now uri live ov).1 := by
  obtain ⟨hnd, hlen⟩ := h
  rw [getProcessedImage]
  cases hl : cacheLookup c (cacheKey uri live ov) with
  | some e =>
    by_cases hexp : now < e.expiresAt
    · simp only [hl, if_pos hexp]
      have hany : c.any (fun p => decide (p.1 = cacheKey uri live ov)) = true := by
        rw [cacheLookup] at hl
        obtain ⟨p, hp1, _⟩ := Option.map_eq_some'.mp hl
        rw [List.any_eq_true]
        have hpm := List.mem_of_find?_eq_some hp1
        have hpp := List.find?_some hp1
        exact ⟨p, hpm, hpp⟩
      exact ⟨cacheSet_keys_nodup hnd _ _,
        by rw [cacheSet_length_of_mem hany]; exact hlen⟩
    · simp only [hl, if_neg hexp]
      exact cacheMiss_ok hnd hlen _ _
  | none =>
    simp only [hl]
    exact cacheMiss_ok hnd hlen _ _

theorem runCacheCalls_ok (calls : List CacheCall) : CacheOk (runCacheCalls calls) := by
  rw [runCacheCalls]
  have h : ∀ c, CacheOk c → CacheOk (calls.foldl (fun c call =>
      (getProcessedImage c call.now call.colorDataUri call.isLive call.overlay).1) c) := by
    induction calls with
    | nil => intro c hc; exact hc
    | cons x xs ih =>
      intro c hc
      rw [List.foldl_cons]
      exact ih _ (getProcessedImage_preserves _ _ _ _ hc)
  exact h [] ⟨List.nodup_nil, by simp [MAX_CACHE_SIZE]⟩

/-- C5: the image cache size never exceeds the fixed capacity of 50 after any
sequence of `getProcessedImage` calls from the empty cache; the per-prune
eviction count is `⌈50 × 0.2⌉ = 10` (the double product `50 * 0.2` is exactly
10); and an insertion performed while the cache is at capacity first evicts
exactly the 10 least-recently-used entries — 10 entries of the cache, each
with `lastUsed` at most that of every survivor, leaving 40 — before
inserting the freshly rendered entry. -/
theorem getProcessedImage_cache_spec :
    (∀ calls : List CacheCall, (runCacheCalls calls).length ≤ MAX_CACHE_SIZE) ∧
    Nat.ceil ((MAX_CACHE_SIZE : ℚ) * (2 / 10)) = EVICT_COUNT ∧
    ∀ (c : ImageCache) (now : Nat) (uri : String) (live : Bool)
      (ov : Option TextOverlay),
      CacheOk c → c.length = MAX_CACHE_SIZE →
      (cacheLookup c (cacheKey uri live ov) = none ∨
        ∃ e, cacheLookup c (cacheKey uri live ov) = some e ∧ e.expiresAt ≤ now) →
      ((pruneCache c).length = MAX_CACHE_SIZE - EVICT_COUNT ∧
       ((sortCacheByLastUsed c).take EVICT_COUNT).length = EVICT_COUNT ∧
       (∀ p ∈ (sortCacheByLastUsed c).take EVICT_COUNT, p ∈ c) ∧
       (∀ e2 ∈ (sortCacheByLastUsed c).take EVICT_COUNT, ∀ f ∈ pruneCache c,
         e2.2.lastUsed ≤ f.2.lastUsed) ∧
       (getProcessedImage c now uri live ov).1 =
         cacheSet (pruneCache c) (cacheKey uri live ov)
           { value := processedImageValue uri live ov,
             expiresAt := now + IMAGE_CACHE_MS, lastUsed := now }) := by
  refine ⟨fun calls => (runCacheCalls_ok calls).2, by norm_num [MAX_CACHE_SIZE, EVICT_COUNT], ?_⟩
  intro c now uri live ov hok hlen hmiss
  obtain ⟨hnd, _⟩ := hok
  obtain ⟨hp40, _, hmemc, hlru⟩ := pruneCache_spec c hnd hlen
  have hslen : (sortCacheByLastUsed c).length = MAX_CACHE_SIZE :=
    (List.perm_insertionSort _ _).length_eq.trans hlen
  have htake : ((sortCacheByLastUsed c).take EVICT_COUNT).length = EVICT_COUNT := by
    rw [List.length_take, hslen]
    decide
  refine ⟨hp40, htake, hmemc, hlru, ?_⟩
  have hge : MAX_CACHE_SIZE ≤ c.length := le_of_eq hlen.symm
  rcases hmiss with hnone | ⟨e, hsome, hexp⟩
  · rw [getProcessedImage]
    simp only [hnone, if_pos hge]
  · rw [getProcessedImage]
    simp only [hsome, if_neg (by omega : ¬ now < e.expiresAt), if_pos hge]

/-- Witness for C5 at a concrete full 50-entry cache and a missing key. -/
theorem getProcessedImage_cache_spec_witness :
    (pruneCache demoCache).length = MAX_CACHE_SIZE - EVICT_COUNT ∧
    ((sortCacheByLastUsed demoCache).take EVICT_COUNT).length = EVICT_COUNT ∧
    (∀ p ∈ (sortCacheByLastUsed demoCache).take EVICT_COUNT, p ∈ demoCache) ∧
    (∀ e2 ∈ (sortCacheByLastUsed demoCache).take EVICT_COUNT,
      ∀ f ∈ pruneCache demoCache, e2.2.lastUsed ≤ f.2.lastUsed) ∧
    (getProcessedImage demoCache 5 "img" true none).1 =
      cacheSet (pruneCache demoCache) (cacheKey "img" true none)
        { value := processedImageValue "img" true none,
          expiresAt := 5 + IMAGE_CACHE_MS, lastUsed := 5 } :=
  getProcessedImage_cache_spec.2.2 demoCache 5 "img" true none
    ⟨by decide, by decide⟩ (by decide) (Or.inl (by decide))

/-! ## C2: token refresh is single-flighted -/

theorem sfInv_step {s s2 : SFState} {l : SFLabel} (hs : SFStep s l s2)
    (hguard : l.isStart = true → s.marker.isSome = true) (hinv : SFInv s) :
    SFInv s2 := by
  obtain ⟨hnp, hf, hm, haw, hdn, hsp, hsl, hmn⟩ := hinv
  cases hs with
  | startJoin i p hc hmrk =>
    have hlen : i < s.callers.length := by
      cases hx : s.callers[i]? with
      | none => rw [hx] at hc; cases hc
      | some v => exact (List.getElem?_eq_some.mp hx).1
    have hp0 : p = 0 := by
      rcases hm with h | h
      · rw [h] at hmrk
        exact (Option.some.inj hmrk).symm
      · rw [h] at hmrk
        cases hmrk
    subst hp0
    refine ⟨hnp, hf, hm, ?_, ?_, hsp, hsl, hmn⟩
    · intro j q hj
      by_cases hij : i = j
      · subst hij
        rw [List.getElem?_set_self (by simpa using hlen)] at hj
        exact (CallerPhase.awaiting.inj (Option.some.inj hj).symm)
      · rw [List.getElem?_set_ne hij] at hj
        exact haw j q hj
    · intro j r hj
      by_cases hij : i = j
      · subst hij
        rw [List.getElem?_set_self (by simpa using hlen)] at hj
        cases Option.some.inj hj
      · rw [List.getElem?_set_ne hij] at hj
        exact hdn j r hj
  | startNew i hc hmrk =>
    have := hguard rfl
    rw [hmrk] at this
    cases this
  | settle p r hp hu =>
    have hp0 : p = 0 := by omega
    subst hp0
    have hsed : s.settled = [] := by
      cases hse : s.settled with
      | nil => rfl
      | cons x xs =>
        have hx0 : x.1 = 0 := hsp x (by rw [hse]; exact List.mem_cons_self _ _)
        have hlk : s.settled.lookup 0 = some x.2 := by
          rw [hse]
          cases x with
          | mk a b =>
            simp only at hx0
            subst hx0
            simp [List.lookup_cons]
        rw [hu] at hlk
        cases hlk
    refine ⟨hnp, hf, hm, haw, ?_, ?_, ?_, ?_⟩
    · intro j r2 hj
      have := hdn j r2 hj
      rw [hsed] at this
      cases this
    · intro pr hpr
      rcases List.mem_cons.mp hpr with h | h
      · rw [h]
      · exact hsp pr h
    · simp [hsed]
    · intro _
      simp [List.lookup_cons]
  | resume i p r hc hs2 =>
    have hlen : i < s.callers.length := by
      cases hx : s.callers[i]? with
      | none => rw [hx] at hc; cases hc
      | some v => exact (List.getElem?_eq_some.mp hx).1
    have hp0 : p = 0 := haw i p hc
    subst hp0
    refine ⟨hnp, hf, Or.inr rfl, ?_, ?_, hsp, hsl, ?_⟩
    · intro j q hj
      by_cases hij : i = j
      · subst hij
        rw [List.getElem?_set_self (by simpa using hlen)] at hj
        cases Option.some.inj hj
      · rw [List.getElem?_set_ne hij] at hj
        exact haw j q hj
    · intro j r2 hj
      by_cases hij : i = j
      · subst hij
        rw [List.getElem?_set_self (by simpa using hlen)] at hj
        have hrr : r = r2 := CallerPhase.done.inj (Option.some.inj hj)
        subst hrr
        exact hs2
      · rw [List.getElem?_set_ne hij] at hj
        exact hdn j r2 hj
    · intro _
      rw [hs2]
      rfl

theorem sfInv_trace {s t : SFState} (h : BusyTrace s t) (hinv : SFInv s) :
    SFInv t := by
  induction h with
  | refl s => exact hinv
  | step hs hg _ ih => exact ih (sfInv_step hs hg hinv)

theorem sfInv_init (n : Nat) : SFInv (initSF n) := by
  refine ⟨rfl, rfl, Or.inl rfl, ?_, ?_, ?_, ?_, ?_⟩
  · intro i p h
    rw [initSF] at h
    simp only [List.getElem?_replicate] at h
    split at h
    · cases Option.some.inj h
    · cases h
  · intro i r h
    rw [initSF] at h
    simp only [List.getElem?_replicate] at h
    split at h
    · cases Option.some.inj h
    · cases h
  · intro pr hpr
    cases hpr
  · exact Nat.zero_le 1
  · intro h
    cases h

/-- C2: along every interleaving from a state with one refresh in flight in
which all callers enter the refresh path while the marker is set, exactly one
upstream refresh request exists (`fetches` stays 1), never more than one
refresh is in flight, every pair of finished callers carries the same settled
token-set result, and the in-flight marker is `none` only after the shared
promise has settled (success or failure alike — the result is the promise's
outcome). -/
theorem refreshTokens_single_flight (n : Nat) (s : SFState)
    (h : BusyTrace (initSF n) s) :
    s.fetches = 1 ∧
    inFlightRefreshes s ≤ 1 ∧
    (∀ (i j ri rj : Nat), s.callers[i]? = some (CallerPhase.done ri) →
      s.callers[j]? = some (CallerPhase.done rj) → ri = rj) ∧
    (s.marker = none → (s.settled.lookup 0).isSome = true) := by
  have hinv := sfInv_trace h (sfInv_init n)
  obtain ⟨hnp, hf, _, _, hdn, _, _, hmn⟩ := hinv
  refine ⟨hf, ?_, ?_, hmn⟩
  · rw [inFlightRefreshes, hnp]
    omega
  · intro i j ri rj hi hj
    have h1 := hdn i ri hi
    have h2 := hdn j rj hj
    rw [h1] at h2
    exact Option.some.inj h2

/-- Witness for C2: a concrete three-step trace — the in-flight promise
settles with result 42, the single caller joins while the marker is still
set, then resumes, clears the marker and finishes with 42. -/
theorem refreshTokens_single_flight_witness :
    sfDemoFinal.fetches = 1 ∧
    inFlightRefreshes sfDemoFinal ≤ 1 ∧
    (∀ (i j ri rj : Nat), sfDemoFinal.callers[i]? = some (CallerPhase.done ri) →
      sfDemoFinal.callers[j]? = some (CallerPhase.done rj) → ri = rj) ∧
    (sfDemoFinal.marker = none →
      (sfDemoFinal.settled.lookup 0).isSome = true) := by
  have htr : BusyTrace (initSF 1) sfDemoFinal :=
    BusyTrace.step (SFStep.settle (initSF 1) 0 42 (by decide) rfl)
      (fun _ => rfl)
      (BusyTrace.step (SFStep.startJoin _ 0 0 rfl rfl) (fun _ => rfl)
        (BusyTrace.step (SFStep.resume _ 0 0 42 rfl rfl) (fun _ => rfl)
          (BusyTrace.refl _)))
  exact refreshTokens_single_flight 1 sfDemoFinal htr

end KickWatch
